import Mathlib

/-!
Verification development for the PyVM repository (vm_core.py).

The Python source is shallowly embedded: pure functions become Lean
functions, the insertion-ordered Python `dict` used by the scoring engine
becomes an explicit key-list plus valuation, and the environment-dependent
inputs of `sandbox_checks` / `Detector.detect` (environment variables,
username, hostname, psutil readings, debugger flag, measured sleep delta,
`platform.system()`) become explicit parameters.  Floating-point timing
statistics are represented by the boolean anomaly flags that the scoring
and classification code actually reads (`low_jitter`, `low_variance`, ...).
-/

/-! ## Python string primitives (ASCII semantics of the operations used) -/

/-- `needle` matches at the head of `hay` (helper for substring search). -/
def listMatchAt : List Char → List Char → Bool
  | [], _ => true
  | _ :: _, [] => false
  | a :: as, b :: bs => a == b && listMatchAt as bs

/-- Substring occurrence test on char lists (Python `needle in hay`). -/
def listHasSub (needle : List Char) : List Char → Bool
  | [] => listMatchAt needle []
  | c :: t => listMatchAt needle (c :: t) || listHasSub needle t

/-- Python `needle in hay` for strings (substring containment). -/
def strIn (needle hay : String) : Bool := listHasSub needle.toList hay.toList

/-- Python `str.isspace` set for the characters `str.strip()` removes
(ASCII whitespace, which is all that appears in the modelled data). -/
def pyIsSpace (c : Char) : Bool :=
  c == ' ' || c == '\t' || c == '\n' || c == '\r' || c == '\x0b' || c == '\x0c'

/-- Python `str.strip()`. -/
def pyStrip (s : String) : String :=
  String.mk (((s.toList.dropWhile pyIsSpace).reverse.dropWhile pyIsSpace).reverse)

/-- ASCII upper-casing of one character (Python `str.upper` on the data in play). -/
def pyCharUpper (c : Char) : Char :=
  if 97 ≤ c.toNat ∧ c.toNat ≤ 122 then Char.ofNat (c.toNat - 32) else c

/-- ASCII lower-casing of one character (Python `str.lower`). -/
def pyCharLower (c : Char) : Char :=
  if 65 ≤ c.toNat ∧ c.toNat ≤ 90 then Char.ofNat (c.toNat + 32) else c

/-- Python `str.upper()`. -/
def pyUpper (s : String) : String := String.mk (s.toList.map pyCharUpper)

/-- Python `str.lower()`. -/
def pyLower (s : String) : String := String.mk (s.toList.map pyCharLower)

/-- Python `s.replace("0x", "")`: remove every (non-overlapping, left-to-right)
occurrence of the two-character pattern `0x`. -/
def pyReplace0x : List Char → List Char
  | '0' :: 'x' :: t => pyReplace0x t
  | c :: t => c :: pyReplace0x t
  | [] => []

/-- `s.replace("0x", "")` on strings. -/
def strReplace0x (s : String) : String := String.mk (pyReplace0x s.toList)

/-- The character class `[0-9A-Fa-f]` of the regex in `_clean_hex`. -/
def pyIsHexDigit (c : Char) : Bool :=
  (48 ≤ c.toNat && c.toNat ≤ 57) || (97 ≤ c.toNat && c.toNat ≤ 102) ||
    (65 ≤ c.toNat && c.toNat ≤ 70)

/-- An uppercase hexadecimal digit `[0-9A-F]`. -/
def isUpperHexDigit (c : Char) : Bool :=
  (48 ≤ c.toNat && c.toNat ≤ 57) || (65 ≤ c.toNat && c.toNat ≤ 70)

/-- The canonical shape claimed for normalized PCI ids: `0x` followed by
exactly 4 uppercase hex digits. -/
def isCanonHex4 (s : String) : Bool :=
  s.toList.length == 6 && listMatchAt ['0', 'x'] s.toList
    && (s.toList.drop 2).all isUpperHexDigit

/-- Code-point lexicographic strict order on char lists (Python `<` on str). -/
def strLtB : List Char → List Char → Bool
  | [], [] => false
  | [], _ :: _ => true
  | _ :: _, [] => false
  | a :: as, b :: bs =>
    if a.toNat < b.toNat then true else if b.toNat < a.toNat then false else strLtB as bs

/-- `a ≤ b` in Python string order. -/
def pyStrLe (a b : String) : Bool := !(strLtB b.toList a.toList)

/-- Insert into an ascending list (helper of the `sorted` model). -/
def insertSorted (a : String) : List String → List String
  | [] => [a]
  | b :: t => if pyStrLe a b then a :: b :: t else b :: insertSorted a t

/-- Python `sorted` on strings (stable ascending code-point order,
realized as insertion sort). -/
def pySortStr : List String → List String
  | [] => []
  | a :: t => insertSorted a (pySortStr t)

/-- Python `sorted(set(xs))`: drop duplicates, then sort. -/
def pySortedSet (xs : List String) : List String := pySortStr xs.dedup

/-! ## Signature catalog (vm_core.py lines 42-109), as insertion-ordered tables -/

def VM_PCI_VENDORS : List (String × List String) :=
  [("VirtualBox", ["0x80EE"]),
   ("VMware",     ["0x15AD"]),
   ("Hyper-V",    ["0x1414"]),
   ("QEMU/KVM",   ["0x1AF4", "0x1B36"]),
   ("Parallels",  ["0x1AB8"]),
   ("Xen",        ["0x5853"])]

def VM_PCI_DEVICES : List (String × List String) :=
  [("QEMU/KVM", ["0x29C0", "0x293E", "0x2918", "0x2922"]),
   ("VMware",   ["0x07B0", "0x07C0"]),
   ("VirtualBox", ["0x0400"])]

def VM_PCI_SIGNATURES : List (String × (List String × List String)) :=
  [("QEMU/KVM", (["1AF4", "1B36", "00DA", "1D0F"], ["29C0", "293E", "2918", "2922", "2930"])),
   ("VMware",   (["15AD"], ["07B0", "07C0", "0790", "07A0", "0740"])),
   ("VirtualBox", (["80EE"], ["0400", "CAFE", "BEEF"])),
   ("Hyper-V",  (["1414"], ["5353", "5801", "0700"])),
   ("Xen",      (["5853"], ["0001", "0002"])),
   ("Parallels", (["1AB8"], ["4005", "0001"]))]

def MAC_PREFIXES : List (String × List String) :=
  [("VirtualBox", ["08:00:27"]),
   ("VMware", ["00:05:69", "00:0C:29", "00:1C:14", "00:50:56"]),
   ("Hyper-V", ["00:15:5D"]),
   ("QEMU/KVM", ["52:54:00"]),
   ("Parallels", ["00:1C:42"])]

def VM_CPUID_SIGS : List (String × String) :=
  [("VMware", "VMwareVMware"),
   ("VirtualBox", "VBoxVBoxVBox"),
   ("QEMU/KVM", "KVMKVMKVM")]

def VM_SOFT_KEYWORDS : List (String × (List String × List String)) :=
  [("VirtualBox", (["virtualbox", "innotek", "oracle"], ["vboxservice", "vboxtray"])),
   ("VMware",     (["vmware"], ["vmtoolsd", "vmwaretray", "vmwareuser"])),
   ("Hyper-V",    (["microsoft corporation", "hyper-v"], ["vmcompute", "vmguest.iso"])),
   ("QEMU/KVM",   (["qemu", "seabios"], ["qemu-ga", "qemuguestagent"])),
   ("Parallels",  (["parallels"], ["prltools", "prl_vm_app"])),
   ("Xen",        (["xen"], ["xenstore", "xenconsoled"]))]

def VM_DISK_VENDORS : List (String × List String) :=
  [("QEMU/KVM", ["QEMU", "KVM"]),
   ("VirtualBox", ["VBOX", "VBOX_HARDDISK", "Oracle"]),
   ("VMware", ["VMware", "VMWARE, Inc"]),
   ("Parallels", ["Parallels"])]

def SANDBOX_PROCS : List String :=
  ["sandbox", "cuckoo", "vmsrvc", "vboxservice", "vmtoolsd",
   "ollydbg", "x64dbg", "x32dbg", "wireshark", "procexp", "procmon"]

/-! ## `_clean_hex` (vm_core.py lines 124-133) -/

/-- The hex digits that survive `_clean_hex`'s strip / `0x`-drop / regex
filter / upper-case pipeline, as a char list. -/
def hexCore (s : String) : List Char :=
  let l := (pyStrip s).toList
  let l2 := if listMatchAt ['0', 'x'] (l.map pyCharLower) then l.drop 2 else l
  (l2.filter pyIsHexDigit).map pyCharUpper

/-- `_clean_hex`: canonicalize a hex id to `0x` + right-justified (width 4,
fill `0`) uppercase hex digits; empty input or no hex digits gives `""`. -/
def _clean_hex (s : String) : String :=
  if s.isEmpty then s
  else
    let core := hexCore s
    if core.isEmpty then ""
    else "0x" ++ String.mk (List.replicate (4 - core.length) '0' ++ core)

/-! ## Insertion-ordered Python dict, as used by the scoring engine -/

/-- A Python `dict` with `String` keys: the insertion-ordered key list plus a
total valuation (only keys in `keys` are ever read by the embedded code). -/
structure PyDict (α : Type) where
  keys : List String
  val : String → α

namespace PyDict

/-- `d[k]` (read). -/
def get (d : PyDict α) (k : String) : α := d.val k

/-- `d[k] = v`: update the valuation, appending `k` to the key list when new. -/
def set (d : PyDict α) (k : String) (v : α) : PyDict α :=
  { keys := if d.keys.contains k then d.keys else d.keys ++ [k],
    val := fun q => if q = k then v else d.val q }

/-- `d.setdefault(k, v)`: insert `k ↦ v` only when `k` is absent. -/
def setdefault (d : PyDict α) (k : String) (v : α) : PyDict α :=
  if d.keys.contains k then d else d.set k v

end PyDict

/-! ## Artifact container (vm_core.py lines 162-189)

The statistical blocks (`interrupt_behavior`, `entropy_behavior`, ...) hold
floating-point measurements; of each block the detector only ever reads one
boolean flag (dict truthiness plus `.get(flag)`), so each block is embedded
as the boolean the flag evaluates to (`false` for the fresh empty dict). -/

structure ArtifactCollection where
  cpu_vendor : Option String := none
  hypervisor_flag : Bool := false
  pci_vendors : List String := []
  pci_devices : List String := []
  acpi_tables : List String := []
  acpi_signatures : List String := []
  cpuid_signature : Option String := none
  bios_vendor : Option String := none
  bios_brand : Option String := none
  system_product : Option String := none
  processes : List String := []
  mac_prefixes : List String := []
  disk_vendors : List String := []
  notes : List String := []
  interrupt_low_jitter : Bool := false
  entropy_low_variance : Bool := false
  topo_suspicious_ratio : Bool := false
  cache_suspicious : Bool := false
  timing_too_consistent : Bool := false
  memory_exact_vm_size : Bool := false
  filesystem_artifacts : List String := []
  hardware_quirks : List String := []
  network_suspiciously_fast : Bool := false
  gpu_vm : Bool := false
  uptime_suspiciously_recent : Bool := false

/-- The state `ArtifactCollection.__init__` produces. -/
def ArtifactCollection.init : ArtifactCollection := {}

/-- Truthiness of an optional Python string (`None` and `""` are falsy). -/
def optTruthy (o : Option String) : Bool := o.getD "" != ""

/-- The string value of an optional Python string (`x or ""`). -/
def optStr (o : Option String) : String := o.getD ""

/-- `Detector._normalize` (vm_core.py lines 925-936): each set-valued field
becomes `sorted({f(x) for x in xs if x})` for the per-field `f`. -/
def Detector._normalize (art : ArtifactCollection) : ArtifactCollection :=
  { art with
    pci_vendors := pySortedSet ((art.pci_vendors.filter (fun x => x != "")).map _clean_hex),
    pci_devices := pySortedSet ((art.pci_devices.filter (fun x => x != "")).map _clean_hex),
    mac_prefixes := pySortedSet ((art.mac_prefixes.filter (fun m => m != "")).map pyUpper),
    processes := pySortedSet (art.processes.filter (fun p => p != "")),
    acpi_tables := pySortedSet (art.acpi_tables.filter (fun t => t != "")),
    acpi_signatures := pySortedSet (art.acpi_signatures.filter (fun s => s != "")),
    disk_vendors := pySortedSet (art.disk_vendors.filter (fun d => d != "")) }

/-! ## Sandbox / anti-analysis engine (vm_core.py lines 785-883) -/

/-- The process-external inputs `sandbox_checks` reads: environment-variable
names, username, hostname, psutil memory (none when psutil is unavailable),
the resolved cpu count, the `sys.gettrace()` debugger flag, and the outcome
of the `delta < 0.13` comparison on the measured 0.15 s sleep. -/
structure SandboxEnv where
  env_keys : List String := []
  user : String := ""
  host : String := ""
  mem : Option Nat := none
  cpus : Option Nat := none
  debugger : Bool := false
  sleep_delta_short : Bool := false

/-- The dictionary `sandbox_checks` returns.  A disk hit is the
(vendor, vm) pair of the Python `{"vendor": dv, "vm": vm}` entry. -/
structure SandboxReport where
  detected : Bool
  heuristics : List String
  process_hits : List String
  env_hits : List String
  disk_hits : List (String × String)
  system_hits : List String
  debugger : Bool
  timing_anomaly : Bool

/-- Process-based indicators: each `(process, keyword)` substring match
appends the process to `process_hits` and a line to `heuristics`. -/
def procScanHits (procs : List String) : List String × List String :=
  procs.foldl (fun acc p =>
    SANDBOX_PROCS.foldl (fun acc2 sig =>
      if strIn sig (pyLower p)
      then (acc2.1 ++ [p], acc2.2 ++ [s!"sandbox process: {p}"])
      else acc2) acc) ([], [])

/-- Environment-variable indicators. -/
def envScanHits (env_keys : List String) : List String × List String :=
  env_keys.foldl (fun acc k =>
    if ["VBOX", "VIRTUALBOX", "VMWARE", "CUCKOO", "SANDBOX", "QEMU"].any
        (fun s => strIn s (pyUpper k))
    then (acc.1 ++ [k], acc2_mk acc k)
    else acc) ([], [])
where
  acc2_mk (acc : List String × List String) (k : String) : List String :=
    acc.2 ++ [s!"env var looks sandboxy: {k}"]

/-- Username / hostname heuristics: for each suspicious word, a hit for the
username and a hit for the hostname. Returns (system_hits, heuristics). -/
def userHostHits (user host : String) : List String × List String :=
  ["sandbox", "analysis", "maltest", "cuckoo", "vm", "test"].foldl (fun acc bad =>
    let u := pyLower user
    let h := pyLower host
    let acc1 := if strIn bad u
      then (acc.1 ++ [s!"user={u}"], acc.2 ++ [s!"suspicious username: {u}"])
      else acc
    if strIn bad h
      then (acc1.1 ++ [s!"host={h}"], acc1.2 ++ [s!"suspicious hostname: {h}"])
      else acc1) ([], [])

/-- Disk vendor indicators. Returns (disk_hits, heuristics). -/
def diskScanHits (dvs : List String) : List (String × String) × List String :=
  dvs.foldl (fun acc dv =>
    VM_DISK_VENDORS.foldl (fun acc2 pr =>
      pr.2.foldl (fun acc3 sub =>
        if strIn (pyLower sub) (pyLower dv)
        then (acc3.1 ++ [(dv, pr.1)], acc3.2 ++ [s!"disk vendor {dv} indicates {pr.1}"])
        else acc3) acc2) acc) ([], [])

/-- ACPI anomaly: system product suggests a VM but no ACPI evidence exists.
Returns (system_hits, heuristics). -/
def acpiContradiction (art : ArtifactCollection) : List String × List String :=
  if optTruthy art.system_product
      && (["virtualbox", "vmware", "qemu", "kvm", "xen", "hyper-v", "parallels"].any
            (fun x => strIn x (pyLower (optStr art.system_product))))
      && art.acpi_signatures.isEmpty && art.acpi_tables.isEmpty
  then (["missing_acpi_for_vm_product"],
        ["system product suggests VM but ACPI signatures missing"])
  else ([], [])

/-- Low-resources heuristics; the memory check only runs when psutil is
available (`env.mem = some m`). -/
def resourceHeur (env : SandboxEnv) : List String :=
  let cpuPart :=
    match env.cpus with
    | some c => if c ≠ 0 ∧ c ≤ 1 then [s!"single CPU ({c})"] else []
    | none => []
  match env.mem with
  | some m => (if m ≠ 0 ∧ m < 1000000000 then [s!"low memory ({m} bytes)"] else []) ++ cpuPart
  | none => cpuPart

/-- `sandbox_checks` (vm_core.py lines 785-883). -/
def sandbox_checks (art : ArtifactCollection) (env : SandboxEnv) : SandboxReport :=
  let pr := procScanHits art.processes
  let ev := envScanHits env.env_keys
  let uh := userHostHits env.user env.host
  let dk := diskScanHits art.disk_vendors
  let ac := acpiContradiction art
  let res := resourceHeur env
  let dbg := env.debugger
  let tim := env.sleep_delta_short
  let heuristics := pr.2 ++ ev.2 ++ uh.2 ++ dk.2 ++ ac.2 ++ res
      ++ (if dbg then ["debugger attached"] else [])
      ++ (if tim then ["sleep timing anomaly"] else [])
  let process_hits := pr.1
  let env_hits := ev.1
  let system_hits := uh.1 ++ ac.1
  let disk_hits := dk.1
  let hits := heuristics.length + process_hits.length + env_hits.length
      + disk_hits.length + system_hits.length
  { detected := dbg || tim || decide (2 ≤ hits),
    heuristics := heuristics,
    process_hits := process_hits,
    env_hits := env_hits,
    disk_hits := disk_hits,
    system_hits := system_hits,
    debugger := dbg,
    timing_anomaly := tim }

/-! ## Detector scoring (vm_core.py lines 898-1064) -/

/-- `platforms = list(VM_PCI_VENDORS.keys())` (vm_core.py line 942). -/
def platforms : List String := VM_PCI_VENDORS.map Prod.fst

/-- The running state of `Detector.score`: the score dict and the explain dict. -/
abbrev ScoreSt := PyDict Int × PyDict (List String)

/-- `scores[vm] += n` (key already present at every use site). -/
def dscore_add (sc : PyDict Int) (vm : String) (n : Int) : PyDict Int :=
  sc.set vm (sc.get vm + n)

/-- `scores.setdefault(vm, 0); scores[vm] += n`. -/
def dscore_addSD (sc : PyDict Int) (vm : String) (n : Int) : PyDict Int :=
  let s := sc.setdefault vm 0
  s.set vm (s.get vm + n)

/-- `explain_map.setdefault(vm, []).append(msg)`. -/
def dexp_app (ex : PyDict (List String)) (vm msg : String) : PyDict (List String) :=
  let e := ex.setdefault vm []
  e.set vm (e.get vm ++ [msg])

/-- `explain_map[vm].append(msg)` (no setdefault; key already present). -/
def dexp_push (ex : PyDict (List String)) (vm msg : String) : PyDict (List String) :=
  ex.set vm (ex.get vm ++ [msg])

/-- `scores = {p: 0 for p in platforms}`, `explain_map = {p: [] for p in platforms}`. -/
def scoreInit : ScoreSt :=
  (platforms.foldl (fun d p => d.set p 0) ⟨[], fun _ => 0⟩,
   platforms.foldl (fun d p => d.set p []) ⟨[], fun _ => []⟩)

/-- Hard vendor matches: +60 per catalog vendor id found among the artifact
PCI vendors (vm_core.py lines 947-951). -/
def scoreHardVendors (art : ArtifactCollection) (st : ScoreSt) : ScoreSt :=
  VM_PCI_VENDORS.foldl (fun st pr =>
    pr.2.foldl (fun st vid =>
      if (art.pci_vendors.map pyUpper).contains (pyUpper vid)
      then (dscore_add st.1 pr.1 60, dexp_push st.2 pr.1 (s!"PCI vendor {vid}"))
      else st) st) st

/-- Expanded vendor/device table: +30 per artifact vendor in the expanded
vendor set, +20 per artifact device in the expanded device set
(vm_core.py lines 954-966). -/
def scoreExpanded (art : ArtifactCollection) (st : ScoreSt) : ScoreSt :=
  VM_PCI_SIGNATURES.foldl (fun st pr =>
    let st1 := art.pci_vendors.foldl (fun st v =>
      if pr.2.1.contains (pyUpper (strReplace0x v))
      then (dscore_addSD st.1 pr.1 30, dexp_app st.2 pr.1 (s!"Expanded vendor {v}"))
      else st) st
    art.pci_devices.foldl (fun st d =>
      if pr.2.2.contains (pyUpper (strReplace0x d))
      then (dscore_addSD st.1 pr.1 20, dexp_app st.2 pr.1 (s!"Expanded device {d}"))
      else st) st1) st

/-- Legacy PCI device table: +20 per catalog device id found
(vm_core.py lines 969-973). -/
def scoreLegacyDevices (art : ArtifactCollection) (st : ScoreSt) : ScoreSt :=
  VM_PCI_DEVICES.foldl (fun st pr =>
    pr.2.foldl (fun st did =>
      if (art.pci_devices.map pyUpper).contains (pyUpper did)
      then (dscore_add st.1 pr.1 20, dexp_app st.2 pr.1 (s!"Legacy device {did}"))
      else st) st) st

/-- CPUID: +40 when the hypervisor string contains a product signature
(vm_core.py lines 976-981). -/
def scoreCpuid (art : ArtifactCollection) (st : ScoreSt) : ScoreSt :=
  if optTruthy art.cpuid_signature then
    VM_CPUID_SIGS.foldl (fun st pr =>
      let sig := pr.2
      if strIn (pyLower sig) (pyLower (optStr art.cpuid_signature))
      then (dscore_addSD st.1 pr.1 40, dexp_app st.2 pr.1 (s!"CPUID {sig}"))
      else st) st
  else st

/-- `vm.lower().split("/")[0]`: the part before the first slash. -/
def slashHead (s : String) : String :=
  String.mk (s.toList.takeWhile (fun c => c != '/'))

/-- ACPI signatures: +15 for each signature string containing the product's
short name (vm_core.py lines 984-988). -/
def scoreAcpi (art : ArtifactCollection) (st : ScoreSt) : ScoreSt :=
  art.acpi_signatures.foldl (fun st sig =>
    platforms.foldl (fun st vm =>
      if strIn (slashHead (pyLower vm)) (pyLower sig)
      then (dscore_add st.1 vm 15, dexp_app st.2 vm (s!"ACPI sig {sig}"))
      else st) st) st

/-- BIOS keywords (+20 per keyword in the BIOS vendor string) and the
normalized BIOS brand (+25) (vm_core.py lines 991-998). -/
def scoreBios (art : ArtifactCollection) (st : ScoreSt) : ScoreSt :=
  let st1 := VM_SOFT_KEYWORDS.foldl (fun st pr =>
    pr.2.1.foldl (fun st kw =>
      if optTruthy art.bios_vendor && strIn (pyLower kw) (pyLower (optStr art.bios_vendor))
      then (dscore_add st.1 pr.1 20, dexp_app st.2 pr.1 (s!"BIOS contains {kw}"))
      else st) st) st
  if optTruthy art.bios_brand && st1.1.keys.contains (optStr art.bios_brand)
  then (dscore_add st1.1 (optStr art.bios_brand) 25,
        dexp_app st1.2 (optStr art.bios_brand) "Normalized BIOS brand")
  else st1

/-- Process keywords: +15 per keyword present in some process name
(vm_core.py lines 1001-1005). -/
def scoreProcessKeywords (art : ArtifactCollection) (st : ScoreSt) : ScoreSt :=
  VM_SOFT_KEYWORDS.foldl (fun st pr =>
    pr.2.2.foldl (fun st pk =>
      if art.processes.any (fun p => strIn (pyLower pk) (pyLower p))
      then (dscore_add st.1 pr.1 15, dexp_app st.2 pr.1 (s!"Process {pk} present"))
      else st) st) st

/-- MAC prefixes: +10 flat when any catalog prefix is observed
(vm_core.py lines 1008-1011). -/
def scoreMacPrefixes (art : ArtifactCollection) (st : ScoreSt) : ScoreSt :=
  MAC_PREFIXES.foldl (fun st pr =>
    if pr.2.any (fun pref => (art.mac_prefixes.map pyUpper).contains (pyUpper pref))
    then (dscore_add st.1 pr.1 10, dexp_app st.2 pr.1 "MAC prefix match")
    else st) st

/-- Disk vendors: +15 per (artifact vendor, catalog substring) match
(vm_core.py lines 1014-1020). -/
def scoreDiskVendors (art : ArtifactCollection) (st : ScoreSt) : ScoreSt :=
  art.disk_vendors.foldl (fun st dv =>
    VM_DISK_VENDORS.foldl (fun st pr =>
      pr.2.foldl (fun st sub =>
        if strIn (pyLower sub) (pyLower dv)
        then (dscore_add st.1 pr.1 15, dexp_app st.2 pr.1 (s!"Disk vendor {dv}"))
        else st) st) st) st

/-- Hypervisor flag: +10 to every product (vm_core.py lines 1023-1026). -/
def scoreHypervisorFlag (art : ArtifactCollection) (st : ScoreSt) : ScoreSt :=
  if art.hypervisor_flag then
    st.1.keys.foldl (fun st vm =>
      (dscore_add st.1 vm 10, dexp_app st.2 vm "Hypervisor flag present")) st
  else st

/-- Windows-only strong system-product indicator: +50 to the single product
selected by the elif chain (vm_core.py lines 1029-1042). -/
def scoreWindowsProduct (win : Bool) (art : ArtifactCollection) (st : ScoreSt) : ScoreSt :=
  if win && optTruthy art.system_product then
    let mfg := pyLower (optStr art.system_product)
    if strIn "qemu" mfg || strIn "kvm" mfg then
      (dscore_add st.1 "QEMU/KVM" 50, dexp_app st.2 "QEMU/KVM" "System -> QEMU/KVM")
    else if strIn "vmware" mfg then
      (dscore_add st.1 "VMware" 50, dexp_app st.2 "VMware" "System -> VMware")
    else if strIn "virtualbox" mfg then
      (dscore_add st.1 "VirtualBox" 50, dexp_app st.2 "VirtualBox" "System -> VirtualBox")
    else if strIn "microsoft" mfg then
      (dscore_add st.1 "Hyper-V" 50, dexp_app st.2 "Hyper-V" "System -> Microsoft/Hyper-V")
    else st
  else st

/-- Cap: `scores[k] = max(0, min(100, int(scores[k])))` for every key
(vm_core.py lines 1044-1046). -/
def scoreClamp (st : ScoreSt) : ScoreSt :=
  (st.1.keys.foldl (fun sc k => sc.set k (max 0 (min 100 (sc.get k)))) st.1, st.2)

/-- The explanation string recorded with the sandbox penalty. -/
def penaltyMsg : String := "Sandbox heuristics detected -> -30 penalty"

/-- One key's worth of the sandbox penalty loop:
`scores[k] = max(0, scores[k] - 30)` plus the explain note. -/
def sandboxPenaltyStep (st : ScoreSt) (k : String) : ScoreSt :=
  (st.1.set k (max 0 (st.1.get k - 30)), dexp_app st.2 k penaltyMsg)

/-- One key's worth of the optional sandbox explain notes
(process-hit count, timing anomaly). -/
def sandboxNoteStep (sb : SandboxReport) (st : ScoreSt) (k : String) : ScoreSt :=
  let n := sb.process_hits.length
  let stA := if n ≠ 0
    then (st.1, dexp_app st.2 k (s!"sandbox process hits: {n}"))
    else st
  if sb.timing_anomaly
    then (stA.1, dexp_app stA.2 k "timing anomaly")
    else stA

/-- Sandbox integration: when a report is supplied and `detected`, subtract
30 (floor 0) from every product and note it; then append the optional
process-hit / timing notes (vm_core.py lines 1049-1060). -/
def scoreSandbox (sandbox : Option SandboxReport) (st : ScoreSt) : ScoreSt :=
  match sandbox with
  | none => st
  | some sb =>
    let st1 := if sb.detected then st.1.keys.foldl sandboxPenaltyStep st else st
    st1.1.keys.foldl (sandboxNoteStep sb) st1

/-- `Detector.score` up to and including the clamp, i.e. the pre-penalty
scores (vm_core.py lines 939-1046). -/
def Detector.scorePre (win : Bool) (art : ArtifactCollection) : ScoreSt :=
  scoreClamp (scoreWindowsProduct win art (scoreHypervisorFlag art (scoreDiskVendors art
    (scoreMacPrefixes art (scoreProcessKeywords art (scoreBios art (scoreAcpi art
      (scoreCpuid art (scoreLegacyDevices art (scoreExpanded art
        (scoreHardVendors art scoreInit)))))))))))

/-- `Detector.score` (vm_core.py lines 939-1064).  The Python `explain` flag
only decides whether the explain map is included in the returned dict; both
maps are always computed, so the embedding returns both. -/
def Detector.score (win : Bool) (art : ArtifactCollection)
    (sandbox : Option SandboxReport) : ScoreSt :=
  scoreSandbox sandbox (Detector.scorePre win art)

/-! ## Classification and `Detector.detect` (vm_core.py lines 1068-1129) -/

/-- `max(scores, key=lambda k: scores[k])`: iterate the dict keys in
insertion order, keeping the first key whose value is strictly greater than
the current best — i.e. the first key reaching the maximum. -/
def pyMaxKey (d : PyDict Int) : String :=
  match d.keys with
  | [] => ""
  | k :: ks => ks.foldl (fun best k2 => if d.get k2 > d.get best then k2 else best) k

/-- The classification decision chain (vm_core.py lines 1119-1126). -/
def classify (best_score : Int) (hardened_signals : Nat) : String :=
  if best_score < 40 ∧ 2 ≤ hardened_signals then "Hardened VM"
  else if 80 ≤ best_score then "Detected VM"
  else if 40 ≤ best_score ∧ best_score < 80 then "Likely VM"
  else "Unknown/Bare Metal"

/-- `enhanced_behavior_scoring` (vm_core.py lines 733-770): the count of
additional hardened signals and the appended behavior-signal lines (numeric
details of the Python f-strings are elided from the messages). -/
def enhanced_behavior_scoring (art : ArtifactCollection) : Nat × List String :=
  let s0 : Nat × List String := (0, [])
  let s1 := if art.cache_suspicious
    then (s0.1 + 1, s0.2 ++ ["Cache timing patterns suggest VM"]) else s0
  let s2 := if art.timing_too_consistent
    then (s1.1 + 1, s1.2 ++ ["Instruction timing too consistent (VM-like)"]) else s1
  let s3 := if art.memory_exact_vm_size
    then (s2.1 + 1, s2.2 ++ ["Memory size matches common VM default"]) else s2
  let s4 := if !art.filesystem_artifacts.isEmpty
    then
      let n := art.filesystem_artifacts.length
      (s3.1 + 1, s3.2 ++ [s!"VM filesystem artifacts: {n} found"])
    else s3
  let s5 := art.hardware_quirks.foldl (fun s q =>
      if q != "no_battery_detected" then (s.1 + 1, s.2 ++ [s!"Hardware quirk: {q}"]) else s) s4
  let s6 := if art.network_suspiciously_fast
    then (s5.1 + 1, s5.2 ++ ["Network latency suspiciously fast"]) else s5
  let s7 := if art.gpu_vm then (s6.1 + 1, s6.2 ++ ["Virtualized GPU detected"]) else s6
  if art.uptime_suspiciously_recent
    then (s7.1 + 1, s7.2 ++ ["System uptime very recent"]) else s7

/-- The three structural hardened signals accumulated directly in `detect`
(vm_core.py lines 1097-1109). -/
def hardenedBase (art : ArtifactCollection) : Nat × List String :=
  let s0 : Nat × List String := (0, [])
  let s1 := if art.interrupt_low_jitter
    then (s0.1 + 1, s0.2 ++ ["Low interrupt jitter suggests VM"]) else s0
  let s2 := if art.entropy_low_variance
    then (s1.1 + 1, s1.2 ++ ["Low entropy variance suggests VM"]) else s1
  if art.topo_suspicious_ratio
    then (s2.1 + 1, s2.2 ++ ["CPU topology ratio suspicious (logical / physical > 4)"]) else s2

/-- `hardened_signals` as computed in `detect` (vm_core.py lines 1098-1113). -/
def hardenedCount (art : ArtifactCollection) : Nat :=
  (hardenedBase art).1 + (enhanced_behavior_scoring art).1

/-- The accumulated `behavior_signals` list of `detect`. -/
def behaviorSignals (art : ArtifactCollection) : List String :=
  (hardenedBase art).2 ++ (enhanced_behavior_scoring art).2

/-- The result dict of `Detector.detect` (vm_core.py lines 1083-1129).
`explain` is `some` exactly when the flag put the key into the dict; the
`behavior_signals` key is only set when the list is nonempty, which the
embedding represents by the possibly-empty list itself. -/
structure DetectResult where
  artifacts : ArtifactCollection
  scores : PyDict Int
  best_guess : String
  confidence : Int
  anti_analysis : SandboxReport
  explain : Option (PyDict (List String))
  aggressive_exit : Bool
  behavior_signals : List String
  classification : String

/-- `Detector.detect` (vm_core.py lines 1068-1129).  `gather_all`'s probe
I/O is replaced by the already-gathered `art` and the sandbox environment
inputs `env`; the final `_normalize` step of `gather_all` is applied here. -/
def Detector.detect (win : Bool) (art : ArtifactCollection) (env : SandboxEnv)
    (explainFlag aggressive_sandbox : Bool) : DetectResult :=
  let art := Detector._normalize art
  let sandbox := sandbox_checks art env
  let sc := Detector.score win art (some sandbox)
  let scores := sc.1
  let best_vm := pyMaxKey scores
  let best_score := scores.get best_vm
  { artifacts := art
    scores := scores
    best_guess := if 20 ≤ best_score then best_vm else "Unknown"
    confidence := best_score
    anti_analysis := sandbox
    explain := if explainFlag then some sc.2 else none
    aggressive_exit := aggressive_sandbox && sandbox.detected
    behavior_signals := behaviorSignals art
    classification := classify best_score (hardenedCount art) }

/-! ## Spec-side definitions (section 4.5 of the spec, for the refinement
claim about best_guess / confidence) -/

/-- Follows the spec's words: the maximum score over the Score Map
(0 for an empty map, which never occurs). -/
def specMaxScore (d : PyDict Int) : Int := ((d.keys.map d.get).max?).getD 0

/-- Follows the spec's words: the first product reaching the maximum score
in table iteration order. -/
def specFirstMaxProduct (d : PyDict Int) : String :=
  (d.keys.find? (fun k => d.get k == specMaxScore d)).getD "Unknown"

/-! ## Invariants and relations used by the verification -/

/-- Both scoring dicts have exactly the six base products as keys. -/
def ScoreInv (st : ScoreSt) : Prop := st.1.keys = platforms ∧ st.2.keys = platforms

/-- Pointwise domination of score states (same key structure, every score
at most the corresponding score on the right). -/
def ScoreLe (st st' : ScoreSt) : Prop :=
  ScoreInv st ∧ ScoreInv st' ∧ ∀ k, st.1.get k ≤ st'.1.get k

/-! ## Concrete inputs used by the closed witness/counterexample theorems -/

/-- An artifact collection whose best product (QEMU/KVM) scores exactly
40 (CPUID) + 15 + 15 (two ACPI signatures) + 15 (guest-agent process) = 85. -/
def art85 : ArtifactCollection :=
  { cpuid_signature := some "KVMKVMKVM",
    acpi_signatures := ["QEMU0001", "QEMUHPET"],
    processes := ["qemu-ga"] }

/-- A benign sandbox environment (nothing fires). -/
def envBenign : SandboxEnv :=
  { user := "alice", host := "home", mem := some 8000000000, cpus := some 8 }

/-- Artifacts with several processes of which only `wireshark` matches a
sandbox keyword. -/
def artWS : ArtifactCollection := { processes := ["bash", "wireshark"] }

/-- A raw PCI vendor entry with no hex digit at all. -/
def artZZ : ArtifactCollection := { pci_vendors := ["zz"] }

/-- Raw artifacts exercising `_normalize` (duplicates, un-prefixed hex). -/
def artMix : ArtifactCollection :=
  { pci_vendors := ["15ad", "0x80EE", "15ad"],
    pci_devices := ["0x0400"],
    mac_prefixes := ["08:00:27"],
    processes := ["a", "a"],
    acpi_tables := ["DSDT"],
    disk_vendors := ["QEMU"] }

/-- A sandbox report with `detected` set (shape of Scenario 3). -/
def sbDet : SandboxReport :=
  { detected := true, heuristics := ["sandbox process: vboxservice", "sandbox process: wireshark"],
    process_hits := ["vboxservice", "wireshark"], env_hits := [], disk_hits := [],
    system_hits := [], debugger := false, timing_anomaly := false }

/-! # Theorems

## Dictionary and fold lemmas -/

theorem contains_of_mem {l : List String} {a : String} (h : a ∈ l) :
    l.contains a = true := by
  simpa using h

theorem mem_of_contains {l : List String} {a : String} (h : l.contains a = true) :
    a ∈ l := by
  simpa using h

theorem PyDict.get_set {α : Type} (d : PyDict α) (k q : String) (v : α) :
    (d.set k v).get q = if q = k then v else d.get q := rfl

theorem PyDict.get_set_self {α : Type} (d : PyDict α) (k : String) (v : α) :
    (d.set k v).get k = v := by
  simp [PyDict.get, PyDict.set]

theorem PyDict.get_set_ne {α : Type} (d : PyDict α) {k q : String} (v : α) (h : q ≠ k) :
    (d.set k v).get q = d.get q := by
  simp [PyDict.get, PyDict.set, h]

theorem PyDict.keys_set_of_contains {α : Type} (d : PyDict α) {k : String} (v : α)
    (h : d.keys.contains k = true) : (d.set k v).keys = d.keys := by
  simp [PyDict.set, h]
  exact mem_of_contains h

theorem PyDict.setdefault_of_contains {α : Type} (d : PyDict α) {k : String} (v : α)
    (h : d.keys.contains k = true) : d.setdefault k v = d := by
  simp only [PyDict.setdefault, h, if_true]

theorem dscore_add_get (sc : PyDict Int) (vm q : String) (n : Int) :
    (dscore_add sc vm n).get q = if q = vm then sc.get vm + n else sc.get q := rfl

theorem dscore_add_keys (sc : PyDict Int) {vm : String} (n : Int)
    (h : sc.keys.contains vm = true) : (dscore_add sc vm n).keys = sc.keys :=
  PyDict.keys_set_of_contains _ _ h

theorem dscore_addSD_of_contains (sc : PyDict Int) {vm : String} (n : Int)
    (h : sc.keys.contains vm = true) : dscore_addSD sc vm n = dscore_add sc vm n := by
  simp [dscore_addSD, dscore_add, PyDict.setdefault_of_contains _ _ h]

theorem dexp_app_of_contains (ex : PyDict (List String)) {vm : String} (msg : String)
    (h : ex.keys.contains vm = true) :
    dexp_app ex vm msg = ex.set vm (ex.get vm ++ [msg]) := by
  simp [dexp_app, dexp_push, PyDict.setdefault_of_contains _ _ h]

theorem dexp_app_keys (ex : PyDict (List String)) {vm : String} (msg : String)
    (h : ex.keys.contains vm = true) : (dexp_app ex vm msg).keys = ex.keys := by
  rw [dexp_app_of_contains _ _ h]
  exact PyDict.keys_set_of_contains _ _ h

theorem dexp_push_keys (ex : PyDict (List String)) {vm : String} (msg : String)
    (h : ex.keys.contains vm = true) : (dexp_push ex vm msg).keys = ex.keys :=
  PyDict.keys_set_of_contains _ _ h

theorem foldl_mem_inv {α β : Type} (P : β → Prop) (step : β → α → β) :
    ∀ (xs : List α), (∀ st x, x ∈ xs → P st → P (step st x)) →
      ∀ st, P st → P (xs.foldl step st) := by
  intro xs
  induction xs with
  | nil => intro _ st h; exact h
  | cons a t ih =>
    intro h st hst
    exact ih (fun st x hx => h st x (List.mem_cons_of_mem _ hx)) _
      (h st a (List.mem_cons_self _ _) hst)

theorem foldl_pair_split {A B K : Type} (g : A → K → A) (h : B → K → B) :
    ∀ (ks : List K) (a : A) (b : B),
      ks.foldl (fun st k => (g st.1 k, h st.2 k)) (a, b) = (ks.foldl g a, ks.foldl h b) := by
  intro ks
  induction ks with
  | nil => intro a b; rfl
  | cons j t ih => intro a b; exact ih (g a j) (h b j)

theorem foldl_rel {α β : Type} (R : β → β → Prop) (step step' : β → α → β) :
    ∀ (xs : List α), (∀ st st' x, x ∈ xs → R st st' → R (step st x) (step' st' x)) →
      ∀ st st', R st st' → R (xs.foldl step st) (xs.foldl step' st') := by
  intro xs
  induction xs with
  | nil => intro _ st st' h; exact h
  | cons a t ih =>
    intro h st st' hst
    exact ih (fun u u' x hx => h u u' x (List.mem_cons_of_mem _ hx)) _ _
      (h st st' a (List.mem_cons_self _ _) hst)

theorem foldl_fst_id {K : Type} (step : ScoreSt → K → ScoreSt)
    (hstep : ∀ st k, (step st k).1 = st.1) :
    ∀ (ks : List K) (st : ScoreSt), (ks.foldl step st).1 = st.1 := by
  intro ks
  induction ks with
  | nil => intro st; rfl
  | cons j t ih =>
    intro st
    simp only [List.foldl_cons]
    rw [ih, hstep]

theorem get_foldl_setf_not_mem (f : String → Int → Int) :
    ∀ (ks : List String) (sc : PyDict Int) (k : String), k ∉ ks →
      (ks.foldl (fun sc j => sc.set j (f j (sc.get j))) sc).get k = sc.get k := by
  intro ks
  induction ks with
  | nil => intro sc k _; rfl
  | cons j t ih =>
    intro sc k hk
    have hkj : k ≠ j := fun h => hk (h ▸ List.mem_cons_self _ _)
    have hkt : k ∉ t := fun h => hk (List.mem_cons_of_mem _ h)
    simp only [List.foldl_cons]
    rw [ih _ _ hkt, PyDict.get_set_ne _ _ hkj]

theorem get_foldl_setf_mem (f : String → Int → Int) :
    ∀ (ks : List String) (sc : PyDict Int) (k : String), ks.Nodup → k ∈ ks →
      (ks.foldl (fun sc j => sc.set j (f j (sc.get j))) sc).get k = f k (sc.get k) := by
  intro ks
  induction ks with
  | nil => intro sc k _ hk; exact absurd hk (List.not_mem_nil k)
  | cons j t ih =>
    intro sc k hnd hk
    simp only [List.foldl_cons]
    rcases List.mem_cons.mp hk with hkj | hkt
    · subst hkj
      have hkt : k ∉ t := (List.nodup_cons.mp hnd).1
      rw [get_foldl_setf_not_mem _ _ _ _ hkt, PyDict.get_set_self]
    · have hkj : k ≠ j := fun h => (List.nodup_cons.mp hnd).1 (h ▸ hkt)
      rw [ih _ _ (List.nodup_cons.mp hnd).2 hkt]
      rw [PyDict.get_set_ne _ _ hkj]

theorem keys_foldl_setf (f : String → Int → Int) :
    ∀ (ks : List String) (sc : PyDict Int), (∀ j ∈ ks, sc.keys.contains j = true) →
      (ks.foldl (fun sc j => sc.set j (f j (sc.get j))) sc).keys = sc.keys := by
  intro ks
  induction ks with
  | nil => intro sc _; rfl
  | cons j t ih =>
    intro sc h
    simp only [List.foldl_cons]
    have hkeys : (sc.set j (f j (sc.get j))).keys = sc.keys :=
      PyDict.keys_set_of_contains _ _ (h j (List.mem_cons_self _ _))
    rw [ih _ (fun i hi => by rw [hkeys]; exact h i (List.mem_cons_of_mem _ hi)), hkeys]

/-! ## Character and hex-canonicalization lemmas -/

theorem char_ofNat_toNat_small {n : Nat} (h : n < 256) : (Char.ofNat n).toNat = n := by
  rw [Char.ofNat, dif_pos (by omega : n < 55296 ∨ 57343 < n ∧ n < 1114112)]
  simp [Char.ofNatAux, Char.toNat, UInt32.toNat, BitVec.toNat_ofNatLt]

theorem upperHex_of_pyHex {c : Char} (h : pyIsHexDigit c = true) :
    isUpperHexDigit (pyCharUpper c) = true := by
  unfold pyIsHexDigit at h
  unfold pyCharUpper isUpperHexDigit
  simp only [Bool.or_eq_true, Bool.and_eq_true, decide_eq_true_eq] at h
  by_cases hc : 97 ≤ c.toNat ∧ c.toNat ≤ 122
  · rw [if_pos hc]
    rw [char_ofNat_toNat_small (by omega)]
    simp only [Bool.or_eq_true, Bool.and_eq_true, decide_eq_true_eq]
    omega
  · rw [if_neg hc]
    simp only [Bool.or_eq_true, Bool.and_eq_true, decide_eq_true_eq]
    omega

theorem toList_0x_append (l : List Char) :
    ("0x" ++ String.mk l).toList = '0' :: 'x' :: l := by
  show ("0x" ++ String.mk l).data = _
  rw [String.data_append]
  rfl

theorem hexCore_empty : hexCore "" = [] := rfl

theorem clean_hex_canon {s : String} (h1 : 1 ≤ (hexCore s).length)
    (h4 : (hexCore s).length ≤ 4) :
    isCanonHex4 (_clean_hex s) = true ∧ _clean_hex s ≠ "" := by
  have hs : ¬ s.isEmpty = true := by
    intro he
    rw [(String.isEmpty_iff s).mp he, hexCore_empty] at h1
    simp at h1
  have hcne : ¬ (hexCore s).isEmpty = true := by
    cases hc : hexCore s with
    | nil => rw [hc] at h1; simp at h1
    | cons c t => simp
  unfold _clean_hex
  rw [if_neg hs, if_neg hcne]
  have htl := toList_0x_append (List.replicate (4 - (hexCore s).length) '0' ++ hexCore s)
  constructor
  · unfold isCanonHex4
    rw [htl]
    simp only [Bool.and_eq_true, beq_iff_eq, List.all_eq_true]
    refine ⟨⟨?_, ?_⟩, ?_⟩
    · simp only [List.length_cons, List.length_append, List.length_replicate]
      omega
    · simp [listMatchAt]
    · intro c hc
      simp only [List.drop_succ_cons, List.drop_zero] at hc
      rcases List.mem_append.mp hc with hrep | hcore
      · rw [List.eq_of_mem_replicate hrep]
        decide
      · rcases List.mem_map.mp hcore with ⟨c0, hc0, rfl⟩
        exact upperHex_of_pyHex (List.of_mem_filter hc0)
  · intro he
    have := congrArg String.toList he
    rw [htl] at this
    simp [String.toList] at this

/-! ## Sorting / dedup lemmas for `_normalize` -/

theorem insertSorted_perm (a : String) :
    ∀ l : List String, (insertSorted a l).Perm (a :: l) := by
  intro l
  induction l with
  | nil => exact List.Perm.refl _
  | cons b t ih =>
    unfold insertSorted
    split
    · exact List.Perm.refl _
    · exact (List.Perm.cons b ih).trans (List.Perm.swap a b t)

theorem pySortStr_perm : ∀ l : List String, (pySortStr l).Perm l := by
  intro l
  induction l with
  | nil => exact List.Perm.refl _
  | cons a t ih => exact (insertSorted_perm a (pySortStr t)).trans (List.Perm.cons a ih)

theorem pySortedSet_nodup (xs : List String) : (pySortedSet xs).Nodup :=
  ((pySortStr_perm xs.dedup).nodup_iff).mpr (List.nodup_dedup xs)

theorem mem_pySortedSet {y : String} {xs : List String} :
    y ∈ pySortedSet xs ↔ y ∈ xs :=
  ((pySortStr_perm xs.dedup).mem_iff).trans (List.mem_dedup)

theorem pyUpper_ne_empty {x : String} (h : x ≠ "") : pyUpper x ≠ "" := by
  intro he
  apply h
  cases x with
  | mk data =>
    cases data with
    | nil => rfl
    | cons c t =>
      exfalso
      have := congrArg String.toList he
      simp [pyUpper, String.toList] at this

/-- C7: hex-id canonicalization is idempotent on the already-canonical
example (`_clean_hex "0x15AD" = "0x15AD"`), and the inputs `"15ad"`,
`"0x15AD"` and `"  15AD "` all canonicalize to `"0x15AD"`. -/
theorem C7_clean_hex_examples :
    _clean_hex "0x15AD" = "0x15AD" ∧ _clean_hex "15ad" = "0x15AD" ∧
      _clean_hex "  15AD " = "0x15AD" := by
  refine ⟨?_, ?_, ?_⟩ <;> decide

/-- C8 counterexample: normalizing a collection whose raw `pci_vendors`
entry `"zz"` is non-empty but has no hex digit leaves the empty string in
the normalized `pci_vendors`, which is not of the canonical `0x` + 4
uppercase hex digit form; the claimed invariant fails as stated. -/
theorem C8_counterexample :
    "" ∈ (Detector._normalize artZZ).pci_vendors ∧ isCanonHex4 "" = false := by
  decide

/-- C8 (amended): after `Detector._normalize`, every set-valued field is
duplicate-free; and provided every non-empty raw PCI vendor/device entry
carries between 1 and 4 hex digits (after stripping and removing a leading
`0x`), the normalized fields contain no empty strings and every PCI entry
is `0x` followed by exactly 4 uppercase, zero-padded hex digits. -/
theorem C8_normalize_invariant (art : ArtifactCollection)
    (hv : ∀ x ∈ art.pci_vendors, x ≠ "" → 1 ≤ (hexCore x).length ∧ (hexCore x).length ≤ 4)
    (hd : ∀ x ∈ art.pci_devices, x ≠ "" → 1 ≤ (hexCore x).length ∧ (hexCore x).length ≤ 4) :
    ((Detector._normalize art).pci_vendors.Nodup ∧
     (Detector._normalize art).pci_devices.Nodup ∧
     (Detector._normalize art).mac_prefixes.Nodup ∧
     (Detector._normalize art).processes.Nodup ∧
     (Detector._normalize art).acpi_tables.Nodup ∧
     (Detector._normalize art).acpi_signatures.Nodup ∧
     (Detector._normalize art).disk_vendors.Nodup) ∧
    (∀ y ∈ (Detector._normalize art).pci_vendors, y ≠ "" ∧ isCanonHex4 y = true) ∧
    (∀ y ∈ (Detector._normalize art).pci_devices, y ≠ "" ∧ isCanonHex4 y = true) ∧
    (∀ y ∈ (Detector._normalize art).mac_prefixes, y ≠ "") ∧
    (∀ y ∈ (Detector._normalize art).processes, y ≠ "") ∧
    (∀ y ∈ (Detector._normalize art).acpi_tables, y ≠ "") ∧
    (∀ y ∈ (Detector._normalize art).acpi_signatures, y ≠ "") ∧
    (∀ y ∈ (Detector._normalize art).disk_vendors, y ≠ "") := by
  refine ⟨⟨pySortedSet_nodup _, pySortedSet_nodup _, pySortedSet_nodup _,
    pySortedSet_nodup _, pySortedSet_nodup _, pySortedSet_nodup _, pySortedSet_nodup _⟩,
    ?_, ?_, ?_, ?_, ?_, ?_, ?_⟩
  · intro y hy
    rcases List.mem_map.mp (mem_pySortedSet.mp hy) with ⟨x, hxf, rfl⟩
    have hxne : x ≠ "" := by simpa using List.of_mem_filter hxf
    obtain ⟨l1, l4⟩ := hv x (List.mem_of_mem_filter hxf) hxne
    obtain ⟨hcanon, hne⟩ := clean_hex_canon l1 l4
    exact ⟨hne, hcanon⟩
  · intro y hy
    rcases List.mem_map.mp (mem_pySortedSet.mp hy) with ⟨x, hxf, rfl⟩
    have hxne : x ≠ "" := by simpa using List.of_mem_filter hxf
    obtain ⟨l1, l4⟩ := hd x (List.mem_of_mem_filter hxf) hxne
    obtain ⟨hcanon, hne⟩ := clean_hex_canon l1 l4
    exact ⟨hne, hcanon⟩
  · intro y hy
    rcases List.mem_map.mp (mem_pySortedSet.mp hy) with ⟨x, hxf, rfl⟩
    exact pyUpper_ne_empty (by simpa using List.of_mem_filter hxf)
  · intro y hy
    simpa using List.of_mem_filter (mem_pySortedSet.mp hy)
  · intro y hy
    simpa using List.of_mem_filter (mem_pySortedSet.mp hy)
  · intro y hy
    simpa using List.of_mem_filter (mem_pySortedSet.mp hy)
  · intro y hy
    simpa using List.of_mem_filter (mem_pySortedSet.mp hy)

/-- C8 witness: the amended invariant instantiated at the concrete raw
collection `artMix`, with the hex-digit-count hypotheses discharged by
computation. -/
theorem C8_witness :
    "0x15AD" ∈ (Detector._normalize artMix).pci_vendors ∧
      (∀ y ∈ (Detector._normalize artMix).pci_vendors, y ≠ "" ∧ isCanonHex4 y = true) :=
  ⟨by decide, (C8_normalize_invariant artMix (by decide) (by decide)).2.1⟩

/-! ## Sandbox verdict lemmas -/

/-- C4: the sandbox verdict equals: debugger attached, or timing anomaly,
or at least two total hits summed over heuristics, process, env, disk and
system hits. -/
theorem C4_sandbox_detected (art : ArtifactCollection) (env : SandboxEnv) :
    (sandbox_checks art env).detected =
      ((sandbox_checks art env).debugger || (sandbox_checks art env).timing_anomaly ||
        decide (2 ≤ (sandbox_checks art env).heuristics.length
          + (sandbox_checks art env).process_hits.length
          + (sandbox_checks art env).env_hits.length
          + (sandbox_checks art env).disk_hits.length
          + (sandbox_checks art env).system_hits.length)) := rfl

theorem procScan_inner_lengths (p : String) :
    ∀ (sigs : List String) (acc : List String × List String),
      ((sigs.foldl (fun acc2 sig =>
          if strIn sig (pyLower p)
          then (acc2.1 ++ [p], acc2.2 ++ [s!"sandbox process: {p}"])
          else acc2) acc).1.length
        = acc.1.length + (sigs.filter (fun sig => strIn sig (pyLower p))).length) ∧
      ((sigs.foldl (fun acc2 sig =>
          if strIn sig (pyLower p)
          then (acc2.1 ++ [p], acc2.2 ++ [s!"sandbox process: {p}"])
          else acc2) acc).2.length
        = acc.2.length + (sigs.filter (fun sig => strIn sig (pyLower p))).length) := by
  intro sigs
  induction sigs with
  | nil => intro acc; constructor <;> simp
  | cons s t ih =>
    intro acc
    simp only [List.foldl_cons, List.filter_cons]
    by_cases hc : strIn s (pyLower p) = true
    · rw [if_pos hc, if_pos hc]
      obtain ⟨iha, ihb⟩ := ih (acc.1 ++ [p], acc.2 ++ [s!"sandbox process: {p}"])
      constructor
      · rw [iha]; simp [List.length_append]; omega
      · rw [ihb]; simp [List.length_append]; omega
    · rw [if_neg hc, if_neg hc]
      exact ih acc

theorem procScanHits_lengths :
    ∀ (procs : List String) (acc : List String × List String),
      ((procs.foldl (fun acc p =>
          SANDBOX_PROCS.foldl (fun acc2 sig =>
            if strIn sig (pyLower p)
            then (acc2.1 ++ [p], acc2.2 ++ [s!"sandbox process: {p}"])
            else acc2) acc) acc).1.length
        = acc.1.length + (procs.map (fun p =>
            (SANDBOX_PROCS.filter (fun sig => strIn sig (pyLower p))).length)).sum) ∧
      ((procs.foldl (fun acc p =>
          SANDBOX_PROCS.foldl (fun acc2 sig =>
            if strIn sig (pyLower p)
            then (acc2.1 ++ [p], acc2.2 ++ [s!"sandbox process: {p}"])
            else acc2) acc) acc).2.length
        = acc.2.length + (procs.map (fun p =>
            (SANDBOX_PROCS.filter (fun sig => strIn sig (pyLower p))).length)).sum) := by
  intro procs
  induction procs with
  | nil => intro acc; constructor <;> simp
  | cons p t ih =>
    intro acc
    simp only [List.foldl_cons, List.map_cons, List.sum_cons]
    obtain ⟨ia, ib⟩ := ih (SANDBOX_PROCS.foldl (fun acc2 sig =>
      if strIn sig (pyLower p)
      then (acc2.1 ++ [p], acc2.2 ++ [s!"sandbox process: {p}"])
      else acc2) acc)
    obtain ⟨ja, jb⟩ := procScan_inner_lengths p SANDBOX_PROCS acc
    constructor
    · rw [ia, ja]; omega
    · rw [ib, jb]; omega

/-- C9: for every artifact collection whose process list yields exactly one
(process, sandbox-keyword) substring match — one name matching one keyword,
among arbitrarily many non-matching processes — and in which no
environment, username/hostname, disk, ACPI-contradiction, low-resource,
debugger, or timing-anomaly signal fires, the single match is counted once
in `process_hits` and once in `heuristics`, so the hit total reaches the
`>= 2` threshold and `detected` is true. -/
theorem C9_single_process_detected (art : ArtifactCollection) (env : SandboxEnv)
    (h1 : (art.processes.map (fun p =>
        (SANDBOX_PROCS.filter (fun sig => strIn sig (pyLower p))).length)).sum = 1)
    (henv : envScanHits env.env_keys = ([], []))
    (huh : userHostHits env.user env.host = ([], []))
    (hdk : diskScanHits art.disk_vendors = ([], []))
    (hac : acpiContradiction art = ([], []))
    (hres : resourceHeur env = [])
    (hdbg : env.debugger = false)
    (htim : env.sleep_delta_short = false) :
    (sandbox_checks art env).detected = true := by
  have hpr := procScanHits_lengths art.processes ([], [])
  rw [h1] at hpr
  simp only [List.length_nil, Nat.zero_add] at hpr
  simp only [sandbox_checks, procScanHits, henv, huh, hdk, hac, hres, hdbg, htim]
  simp only [Bool.false_or, if_false, Bool.or_eq_true, decide_eq_true_eq]
  simp [hpr.1, hpr.2]

/-! ## Key-set invariance of the scoring stages -/

theorem vendors_keys_sub : ∀ pr ∈ VM_PCI_VENDORS, platforms.contains pr.1 = true := by decide

theorem sigs_keys_sub : ∀ pr ∈ VM_PCI_SIGNATURES, platforms.contains pr.1 = true := by decide

theorem devices_keys_sub : ∀ pr ∈ VM_PCI_DEVICES, platforms.contains pr.1 = true := by decide

theorem cpuid_keys_sub : ∀ pr ∈ VM_CPUID_SIGS, platforms.contains pr.1 = true := by decide

theorem soft_keys_sub : ∀ pr ∈ VM_SOFT_KEYWORDS, platforms.contains pr.1 = true := by decide

theorem mac_keys_sub : ∀ pr ∈ MAC_PREFIXES, platforms.contains pr.1 = true := by decide

theorem disk_keys_sub : ∀ pr ∈ VM_DISK_VENDORS, platforms.contains pr.1 = true := by decide

theorem ScoreInv_bump_add_app {st : ScoreSt} (h : ScoreInv st) {vm : String}
    (hvm : platforms.contains vm = true) (n : Int) (msg : String) :
    ScoreInv (dscore_add st.1 vm n, dexp_app st.2 vm msg) := by
  obtain ⟨h1, h2⟩ := h
  constructor
  · rw [dscore_add_keys _ _ (by rw [h1]; exact hvm), h1]
  · rw [dexp_app_keys _ _ (by rw [h2]; exact hvm), h2]

theorem ScoreInv_bump_add_push {st : ScoreSt} (h : ScoreInv st) {vm : String}
    (hvm : platforms.contains vm = true) (n : Int) (msg : String) :
    ScoreInv (dscore_add st.1 vm n, dexp_push st.2 vm msg) := by
  obtain ⟨h1, h2⟩ := h
  constructor
  · rw [dscore_add_keys _ _ (by rw [h1]; exact hvm), h1]
  · rw [dexp_push_keys _ _ (by rw [h2]; exact hvm), h2]

theorem ScoreInv_bump_addSD_app {st : ScoreSt} (h : ScoreInv st) {vm : String}
    (hvm : platforms.contains vm = true) (n : Int) (msg : String) :
    ScoreInv (dscore_addSD st.1 vm n, dexp_app st.2 vm msg) := by
  rw [dscore_addSD_of_contains _ _ (by rw [h.1]; exact hvm)]
  exact ScoreInv_bump_add_app h hvm n msg

theorem ScoreInv_exp_only {st : ScoreSt} (h : ScoreInv st) {vm : String}
    (hvm : platforms.contains vm = true) (msg : String) :
    ScoreInv (st.1, dexp_app st.2 vm msg) := by
  obtain ⟨h1, h2⟩ := h
  exact ⟨h1, by rw [dexp_app_keys _ _ (by rw [h2]; exact hvm), h2]⟩

theorem scoreHardVendors_inv (art : ArtifactCollection) {st : ScoreSt} (h : ScoreInv st) :
    ScoreInv (scoreHardVendors art st) := by
  unfold scoreHardVendors
  refine foldl_mem_inv ScoreInv _ _ ?_ st h
  intro st pr hpr hst
  refine foldl_mem_inv ScoreInv _ _ ?_ st hst
  intro st vid _ hst2
  split
  · exact ScoreInv_bump_add_push hst2 (vendors_keys_sub pr hpr) 60 _
  · exact hst2

theorem scoreExpanded_inv (art : ArtifactCollection) {st : ScoreSt} (h : ScoreInv st) :
    ScoreInv (scoreExpanded art st) := by
  unfold scoreExpanded
  refine foldl_mem_inv ScoreInv _ _ ?_ st h
  intro st pr hpr hst
  refine foldl_mem_inv ScoreInv _ _ ?_ _ (foldl_mem_inv ScoreInv _ _ ?_ st hst)
  · intro st d _ hst2
    split
    · exact ScoreInv_bump_addSD_app hst2 (sigs_keys_sub pr hpr) 20 _
    · exact hst2
  · intro st v _ hst2
    split
    · exact ScoreInv_bump_addSD_app hst2 (sigs_keys_sub pr hpr) 30 _
    · exact hst2

theorem scoreLegacyDevices_inv (art : ArtifactCollection) {st : ScoreSt} (h : ScoreInv st) :
    ScoreInv (scoreLegacyDevices art st) := by
  unfold scoreLegacyDevices
  refine foldl_mem_inv ScoreInv _ _ ?_ st h
  intro st pr hpr hst
  refine foldl_mem_inv ScoreInv _ _ ?_ st hst
  intro st did _ hst2
  split
  · exact ScoreInv_bump_add_app hst2 (devices_keys_sub pr hpr) 20 _
  · exact hst2

theorem scoreCpuid_inv (art : ArtifactCollection) {st : ScoreSt} (h : ScoreInv st) :
    ScoreInv (scoreCpuid art st) := by
  unfold scoreCpuid
  split
  · refine foldl_mem_inv ScoreInv _ _ ?_ st h
    intro st pr hpr hst
    dsimp only
    split
    · exact ScoreInv_bump_addSD_app hst (cpuid_keys_sub pr hpr) 40 _
    · exact hst
  · exact h

theorem scoreAcpi_inv (art : ArtifactCollection) {st : ScoreSt} (h : ScoreInv st) :
    ScoreInv (scoreAcpi art st) := by
  unfold scoreAcpi
  refine foldl_mem_inv ScoreInv _ _ ?_ st h
  intro st sig _ hst
  refine foldl_mem_inv ScoreInv _ _ ?_ st hst
  intro st vm hvm hst2
  split
  · exact ScoreInv_bump_add_app hst2 (contains_of_mem hvm) 15 _
  · exact hst2

theorem scoreBios_inv (art : ArtifactCollection) {st : ScoreSt} (h : ScoreInv st) :
    ScoreInv (scoreBios art st) := by
  unfold scoreBios
  have h1 : ScoreInv (VM_SOFT_KEYWORDS.foldl (fun st pr =>
      pr.2.1.foldl (fun st kw =>
        if optTruthy art.bios_vendor && strIn (pyLower kw) (pyLower (optStr art.bios_vendor))
        then (dscore_add st.1 pr.1 20, dexp_app st.2 pr.1 (s!"BIOS contains {kw}"))
        else st) st) st) := by
    refine foldl_mem_inv ScoreInv _ _ ?_ st h
    intro st pr hpr hst
    refine foldl_mem_inv ScoreInv _ _ ?_ st hst
    intro st kw _ hst2
    split
    · exact ScoreInv_bump_add_app hst2 (soft_keys_sub pr hpr) 20 _
    · exact hst2
  dsimp only
  split
  · next hcond =>
    have hcont := Bool.and_elim_right hcond
    rw [h1.1] at hcont
    exact ScoreInv_bump_add_app h1 hcont 25 _
  · exact h1

theorem scoreProcessKeywords_inv (art : ArtifactCollection) {st : ScoreSt} (h : ScoreInv st) :
    ScoreInv (scoreProcessKeywords art st) := by
  unfold scoreProcessKeywords
  refine foldl_mem_inv ScoreInv _ _ ?_ st h
  intro st pr hpr hst
  refine foldl_mem_inv ScoreInv _ _ ?_ st hst
  intro st pk _ hst2
  split
  · exact ScoreInv_bump_add_app hst2 (soft_keys_sub pr hpr) 15 _
  · exact hst2

theorem scoreMacPrefixes_inv (art : ArtifactCollection) {st : ScoreSt} (h : ScoreInv st) :
    ScoreInv (scoreMacPrefixes art st) := by
  unfold scoreMacPrefixes
  refine foldl_mem_inv ScoreInv _ _ ?_ st h
  intro st pr hpr hst
  split
  · exact ScoreInv_bump_add_app hst (mac_keys_sub pr hpr) 10 _
  · exact hst

theorem scoreDiskVendors_inv (art : ArtifactCollection) {st : ScoreSt} (h : ScoreInv st) :
    ScoreInv (scoreDiskVendors art st) := by
  unfold scoreDiskVendors
  refine foldl_mem_inv ScoreInv _ _ ?_ st h
  intro st dv _ hst
  refine foldl_mem_inv ScoreInv _ _ ?_ st hst
  intro st pr hpr hst2
  refine foldl_mem_inv ScoreInv _ _ ?_ st hst2
  intro st sub _ hst3
  split
  · exact ScoreInv_bump_add_app hst3 (disk_keys_sub pr hpr) 15 _
  · exact hst3

theorem scoreHypervisorFlag_inv (art : ArtifactCollection) {st : ScoreSt} (h : ScoreInv st) :
    ScoreInv (scoreHypervisorFlag art st) := by
  unfold scoreHypervisorFlag
  split
  · rw [h.1]
    refine foldl_mem_inv ScoreInv _ _ ?_ st h
    intro st vm hvm hst
    exact ScoreInv_bump_add_app hst (contains_of_mem hvm) 10 _
  · exact h

theorem scoreWindowsProduct_inv (win : Bool) (art : ArtifactCollection) {st : ScoreSt}
    (h : ScoreInv st) : ScoreInv (scoreWindowsProduct win art st) := by
  unfold scoreWindowsProduct
  split
  · dsimp only
    split
    · exact ScoreInv_bump_add_app h (by decide) 50 _
    · split
      · exact ScoreInv_bump_add_app h (by decide) 50 _
      · split
        · exact ScoreInv_bump_add_app h (by decide) 50 _
        · split
          · exact ScoreInv_bump_add_app h (by decide) 50 _
          · exact h
  · exact h

theorem scoreClamp_inv {st : ScoreSt} (h : ScoreInv st) : ScoreInv (scoreClamp st) := by
  unfold scoreClamp
  constructor
  · rw [keys_foldl_setf (fun _ v => max 0 (min 100 v)) _ _
      (fun j hj => contains_of_mem hj)]
    exact h.1
  · exact h.2

theorem sandboxPenaltyStep_inv {st : ScoreSt} (h : ScoreInv st) {k : String}
    (hk : platforms.contains k = true) : ScoreInv (sandboxPenaltyStep st k) := by
  unfold sandboxPenaltyStep
  obtain ⟨h1, h2⟩ := h
  constructor
  · rw [PyDict.keys_set_of_contains _ _ (by rw [h1]; exact hk), h1]
  · rw [dexp_app_keys _ _ (by rw [h2]; exact hk), h2]

theorem sandboxNoteStep_inv (sb : SandboxReport) {st : ScoreSt} (h : ScoreInv st) {k : String}
    (hk : platforms.contains k = true) : ScoreInv (sandboxNoteStep sb st k) := by
  unfold sandboxNoteStep
  have hA : ScoreInv (if sb.process_hits.length ≠ 0
      then (st.1, dexp_app st.2 k (s!"sandbox process hits: {sb.process_hits.length}"))
      else st) := by
    split
    · exact ScoreInv_exp_only h hk _
    · exact h
  split
  · exact ScoreInv_exp_only hA hk _
  · exact hA

theorem scoreSandbox_inv (sb : Option SandboxReport) {st : ScoreSt} (h : ScoreInv st) :
    ScoreInv (scoreSandbox sb st) := by
  cases sb with
  | none => exact h
  | some sb =>
    simp only [scoreSandbox]
    have h1 : ScoreInv (if sb.detected then st.1.keys.foldl sandboxPenaltyStep st else st) := by
      split
      · rw [h.1]
        refine foldl_mem_inv ScoreInv _ _ ?_ st h
        intro st k hk hst
        exact sandboxPenaltyStep_inv hst (contains_of_mem hk)
      · exact h
    rw [h1.1]
    refine foldl_mem_inv ScoreInv _ _ ?_ _ h1
    intro st k hk hst
    exact sandboxNoteStep_inv sb hst (contains_of_mem hk)

theorem scoreInit_inv : ScoreInv scoreInit := by
  exact ⟨by decide, by decide⟩

theorem scorePre_inv (win : Bool) (art : ArtifactCollection) :
    ScoreInv (Detector.scorePre win art) := by
  unfold Detector.scorePre
  exact scoreClamp_inv (scoreWindowsProduct_inv win art (scoreHypervisorFlag_inv art
    (scoreDiskVendors_inv art (scoreMacPrefixes_inv art (scoreProcessKeywords_inv art
      (scoreBios_inv art (scoreAcpi_inv art (scoreCpuid_inv art
        (scoreLegacyDevices_inv art (scoreExpanded_inv art
          (scoreHardVendors_inv art scoreInit_inv)))))))))))

theorem score_inv (win : Bool) (art : ArtifactCollection) (sb : Option SandboxReport) :
    ScoreInv (Detector.score win art sb) :=
  scoreSandbox_inv sb (scorePre_inv win art)

/-- C10: for every artifact collection and every optional sandbox report,
the key set of the score map returned by `Detector.score` is exactly the
six base products, in catalog order — no key is added or removed. -/
theorem C10_score_keys (win : Bool) (art : ArtifactCollection) (sb : Option SandboxReport) :
    (Detector.score win art sb).1.keys =
      ["VirtualBox", "VMware", "Hyper-V", "QEMU/KVM", "Parallels", "Xen"] :=
  (score_inv win art sb).1

/-! ## Value-level characterization of clamp and sandbox penalty -/

theorem platforms_nodup : platforms.Nodup := by decide

theorem scoreClamp_get {st : ScoreSt} (h : ScoreInv st) {p : String} (hp : p ∈ platforms) :
    (scoreClamp st).1.get p = max 0 (min 100 (st.1.get p)) := by
  unfold scoreClamp
  rw [h.1]
  exact get_foldl_setf_mem (fun _ v => max 0 (min 100 v)) platforms st.1 p platforms_nodup hp

theorem scorePre_range (win : Bool) (art : ArtifactCollection) (p : String)
    (hp : p ∈ platforms) :
    0 ≤ (Detector.scorePre win art).1.get p ∧ (Detector.scorePre win art).1.get p ≤ 100 := by
  have hinv : ScoreInv (scoreWindowsProduct win art (scoreHypervisorFlag art
      (scoreDiskVendors art (scoreMacPrefixes art (scoreProcessKeywords art
        (scoreBios art (scoreAcpi art (scoreCpuid art (scoreLegacyDevices art
          (scoreExpanded art (scoreHardVendors art scoreInit))))))))))) :=
    scoreWindowsProduct_inv win art (scoreHypervisorFlag_inv art
      (scoreDiskVendors_inv art (scoreMacPrefixes_inv art (scoreProcessKeywords_inv art
        (scoreBios_inv art (scoreAcpi_inv art (scoreCpuid_inv art
          (scoreLegacyDevices_inv art (scoreExpanded_inv art
            (scoreHardVendors_inv art scoreInit_inv))))))))))
  unfold Detector.scorePre
  rw [scoreClamp_get hinv hp]
  omega

theorem penaltyFold_split :
    ∀ (ks : List String) (ab : ScoreSt),
      ks.foldl sandboxPenaltyStep ab
        = (ks.foldl (fun sc k => sc.set k (max 0 (sc.get k - 30))) ab.1,
           ks.foldl (fun ex k => dexp_app ex k penaltyMsg) ab.2) := by
  intro ks
  induction ks with
  | nil => intro ab; rfl
  | cons j t ih =>
    intro ab
    simp only [List.foldl_cons]
    exact ih (sandboxPenaltyStep ab j)

theorem exp_foldl_app_keys (msg : String) :
    ∀ (ks : List String) (ex : PyDict (List String)),
      (∀ j ∈ ks, ex.keys.contains j = true) →
      (ks.foldl (fun ex j => dexp_app ex j msg) ex).keys = ex.keys := by
  intro ks
  induction ks with
  | nil => intro ex _; rfl
  | cons j t ih =>
    intro ex h
    simp only [List.foldl_cons]
    have hkeys : (dexp_app ex j msg).keys = ex.keys :=
      dexp_app_keys _ _ (h j (List.mem_cons_self _ _))
    rw [ih _ (fun i hi => by rw [hkeys]; exact h i (List.mem_cons_of_mem _ hi)), hkeys]

theorem exp_foldl_app_get_not_mem (msg : String) :
    ∀ (ks : List String) (ex : PyDict (List String)) (k : String),
      (∀ j ∈ ks, ex.keys.contains j = true) → k ∉ ks →
      (ks.foldl (fun ex j => dexp_app ex j msg) ex).get k = ex.get k := by
  intro ks
  induction ks with
  | nil => intro ex k _ _; rfl
  | cons j t ih =>
    intro ex k h hk
    have hkj : k ≠ j := fun hkj => hk (hkj ▸ List.mem_cons_self _ _)
    have hkt : k ∉ t := fun hkt => hk (List.mem_cons_of_mem _ hkt)
    have hcj := h j (List.mem_cons_self _ _)
    have hkeys : (dexp_app ex j msg).keys = ex.keys := dexp_app_keys _ _ hcj
    simp only [List.foldl_cons]
    rw [ih _ _ (fun i hi => by rw [hkeys]; exact h i (List.mem_cons_of_mem _ hi)) hkt,
      dexp_app_of_contains _ _ hcj, PyDict.get_set_ne _ _ hkj]

theorem exp_foldl_app_get_mem (msg : String) :
    ∀ (ks : List String) (ex : PyDict (List String)) (k : String),
      (∀ j ∈ ks, ex.keys.contains j = true) → ks.Nodup → k ∈ ks →
      (ks.foldl (fun ex j => dexp_app ex j msg) ex).get k = ex.get k ++ [msg] := by
  intro ks
  induction ks with
  | nil => intro ex k _ _ hk; exact absurd hk (List.not_mem_nil k)
  | cons j t ih =>
    intro ex k h hnd hk
    have hcj := h j (List.mem_cons_self _ _)
    have hkeys : (dexp_app ex j msg).keys = ex.keys := dexp_app_keys _ _ hcj
    simp only [List.foldl_cons]
    rcases List.mem_cons.mp hk with hkj | hkt
    · subst hkj
      have hkt : k ∉ t := (List.nodup_cons.mp hnd).1
      rw [exp_foldl_app_get_not_mem msg t _ k
          (fun i hi => by rw [hkeys]; exact h i (List.mem_cons_of_mem _ hi)) hkt,
        dexp_app_of_contains _ _ hcj, PyDict.get_set_self]
    · have hkj : k ≠ j := fun hkj => (List.nodup_cons.mp hnd).1 (hkj ▸ hkt)
      rw [ih _ _ (fun i hi => by rw [hkeys]; exact h i (List.mem_cons_of_mem _ hi))
          (List.nodup_cons.mp hnd).2 hkt,
        dexp_app_of_contains _ _ hcj, PyDict.get_set_ne _ _ hkj]

theorem sandboxNoteStep_fst (sb : SandboxReport) (st : ScoreSt) (k : String) :
    (sandboxNoteStep sb st k).1 = st.1 := by
  unfold sandboxNoteStep
  dsimp only
  split <;> split <;> rfl

theorem dexp_app_mem {ex : PyDict (List String)} {k j : String} {msg x : String}
    (hc : ex.keys.contains j = true) (hx : x ∈ ex.get k) :
    x ∈ (dexp_app ex j msg).get k := by
  rw [dexp_app_of_contains _ _ hc, PyDict.get_set]
  split
  · next heq =>
    subst heq
    exact List.mem_append_left _ hx
  · exact hx

theorem sandboxNoteStep_exp_keys (sb : SandboxReport) (st : ScoreSt) {k : String}
    (hc : st.2.keys.contains k = true) : (sandboxNoteStep sb st k).2.keys = st.2.keys := by
  unfold sandboxNoteStep
  dsimp only
  split
  · split
    · rw [dexp_app_keys _ _ (by rw [dexp_app_keys _ _ hc]; exact hc),
        dexp_app_keys _ _ hc]
    · rw [dexp_app_keys _ _ hc]
  · split
    · rw [dexp_app_keys _ _ hc]
    · rfl

theorem sandboxNoteStep_exp_mem (sb : SandboxReport) (st : ScoreSt) {k j : String}
    (hc : st.2.keys.contains j = true) {x : String} (hx : x ∈ st.2.get k) :
    x ∈ (sandboxNoteStep sb st j).2.get k := by
  unfold sandboxNoteStep
  dsimp only
  split
  · split
    · exact dexp_app_mem (by rw [dexp_app_keys _ _ hc]; exact hc) (dexp_app_mem hc hx)
    · exact dexp_app_mem hc hx
  · split
    · exact dexp_app_mem hc hx
    · exact hx

theorem noteFold_exp_mem (sb : SandboxReport) (x k : String) :
    ∀ (ks : List String) (st : ScoreSt), st.2.keys = platforms →
      (∀ j ∈ ks, platforms.contains j = true) →
      x ∈ st.2.get k → x ∈ (ks.foldl (sandboxNoteStep sb) st).2.get k := by
  intro ks
  induction ks with
  | nil => intro st _ _ hx; exact hx
  | cons j t ih =>
    intro st hkeys h hx
    have hcj : st.2.keys.contains j = true := by
      rw [hkeys]; exact h j (List.mem_cons_self _ _)
    simp only [List.foldl_cons]
    exact ih _ (by rw [sandboxNoteStep_exp_keys sb st hcj, hkeys])
      (fun i hi => h i (List.mem_cons_of_mem _ hi))
      (sandboxNoteStep_exp_mem sb st hcj hx)

theorem score_none_eq (win : Bool) (art : ArtifactCollection) :
    Detector.score win art none = Detector.scorePre win art := rfl

theorem score_some_scores (win : Bool) (art : ArtifactCollection) (sb : SandboxReport) :
    (Detector.score win art (some sb)).1
      = if sb.detected
        then platforms.foldl (fun sc k => sc.set k (max 0 (sc.get k - 30)))
              (Detector.scorePre win art).1
        else (Detector.scorePre win art).1 := by
  have hpre := scorePre_inv win art
  show (scoreSandbox (some sb) (Detector.scorePre win art)).1 = _
  simp only [scoreSandbox]
  rw [foldl_fst_id _ (sandboxNoteStep_fst sb)]
  cases hdet : sb.detected with
  | true =>
    simp only [if_true]
    rw [hpre.1, penaltyFold_split]
  | false =>
    simp only [Bool.false_eq_true, if_false]

theorem score_some_get_detected (win : Bool) (art : ArtifactCollection) (sb : SandboxReport)
    (hdet : sb.detected = true) (p : String) (hp : p ∈ platforms) :
    (Detector.score win art (some sb)).1.get p
      = max 0 ((Detector.scorePre win art).1.get p - 30) := by
  rw [score_some_scores, hdet]
  simp only [if_true]
  exact get_foldl_setf_mem (fun _ v => max 0 (v - 30)) platforms _ p platforms_nodup hp

theorem score_some_get_notdet (win : Bool) (art : ArtifactCollection) (sb : SandboxReport)
    (hdet : sb.detected = false) (p : String) :
    (Detector.score win art (some sb)).1.get p = (Detector.scorePre win art).1.get p := by
  rw [score_some_scores, hdet]
  simp only [Bool.false_eq_true, if_false]

theorem score_some_penaltyMsg (win : Bool) (art : ArtifactCollection) (sb : SandboxReport)
    (hdet : sb.detected = true) (p : String) (hp : p ∈ platforms) :
    penaltyMsg ∈ (Detector.score win art (some sb)).2.get p := by
  have hpre := scorePre_inv win art
  have hcont : ∀ j ∈ platforms, (Detector.scorePre win art).2.keys.contains j = true :=
    fun j hj => by rw [hpre.2]; exact contains_of_mem hj
  show penaltyMsg ∈ (scoreSandbox (some sb) (Detector.scorePre win art)).2.get p
  simp only [scoreSandbox, hdet, if_true]
  rw [hpre.1, penaltyFold_split]
  have hkeys1 : (platforms.foldl (fun sc k => sc.set k (max 0 (sc.get k - 30)))
      (Detector.scorePre win art).1).keys = platforms := by
    rw [keys_foldl_setf (fun _ v => max 0 (v - 30)) platforms _
      (fun j hj => by rw [hpre.1]; exact contains_of_mem hj)]
    exact hpre.1
  have hkeys2 : (platforms.foldl (fun ex j => dexp_app ex j penaltyMsg)
      (Detector.scorePre win art).2).keys = platforms := by
    rw [exp_foldl_app_keys penaltyMsg platforms _ hcont]
    exact hpre.2
  rw [hkeys1]
  refine noteFold_exp_mem sb penaltyMsg p platforms _ hkeys2
    (fun j hj => contains_of_mem hj) ?_
  rw [exp_foldl_app_get_mem penaltyMsg platforms _ p hcont platforms_nodup hp]
  exact List.mem_append_right _ (List.mem_singleton_self _)

/-- C3: when `Detector.score` is given a sandbox report with
`detected = true`, every product's final score equals its pre-penalty
clamped score minus 30 floored at 0; hence it is at most the pre-penalty
score and never below 0, and the penalty explanation is appended to every
product's explain entry. -/
theorem C3_sandbox_penalty (win : Bool) (art : ArtifactCollection) (sb : SandboxReport)
    (hdet : sb.detected = true) (p : String) (hp : p ∈ platforms) :
    (Detector.score win art (some sb)).1.get p
        = max 0 ((Detector.scorePre win art).1.get p - 30) ∧
    (Detector.score win art (some sb)).1.get p ≤ (Detector.scorePre win art).1.get p ∧
    0 ≤ (Detector.score win art (some sb)).1.get p ∧
    penaltyMsg ∈ (Detector.score win art (some sb)).2.get p := by
  have hrange := scorePre_range win art p hp
  have hget := score_some_get_detected win art sb hdet p hp
  refine ⟨hget, ?_, ?_, score_some_penaltyMsg win art sb hdet p hp⟩
  · rw [hget]; omega
  · rw [hget]; omega

/-- C3 witness: the penalty characterization at the empty collection, the
concrete detected report `sbDet` and the product VMware. -/
theorem C3_witness :
    (Detector.score false ArtifactCollection.init (some sbDet)).1.get "VMware"
        = max 0 ((Detector.scorePre false ArtifactCollection.init).1.get "VMware" - 30) ∧
    (Detector.score false ArtifactCollection.init (some sbDet)).1.get "VMware"
        ≤ (Detector.scorePre false ArtifactCollection.init).1.get "VMware" ∧
    0 ≤ (Detector.score false ArtifactCollection.init (some sbDet)).1.get "VMware" ∧
    penaltyMsg ∈ (Detector.score false ArtifactCollection.init (some sbDet)).2.get "VMware" :=
  C3_sandbox_penalty false ArtifactCollection.init sbDet rfl "VMware" (by decide)

/-- C5: for every artifact collection and optional sandbox report, every
product's score in the map returned by `Detector.score` lies in [0, 100]. -/
theorem C5_score_range (win : Bool) (art : ArtifactCollection) (sb : Option SandboxReport)
    (p : String) (hp : p ∈ platforms) :
    0 ≤ (Detector.score win art sb).1.get p ∧ (Detector.score win art sb).1.get p ≤ 100 := by
  cases sb with
  | none => exact score_none_eq win art ▸ scorePre_range win art p hp
  | some sb =>
    have hrange := scorePre_range win art p hp
    cases hdet : sb.detected with
    | true => rw [score_some_get_detected win art sb hdet p hp]; omega
    | false => rw [score_some_get_notdet win art sb hdet p]; omega

/-- C5 witness: the clamp invariant at the empty collection, no sandbox
report, product VirtualBox. -/
theorem C5_witness :
    0 ≤ (Detector.score false ArtifactCollection.init none).1.get "VirtualBox" ∧
      (Detector.score false ArtifactCollection.init none).1.get "VirtualBox" ≤ 100 :=
  C5_score_range false ArtifactCollection.init none "VirtualBox" (by decide)

/-! ## The fold in `pyMaxKey` computes the first maximum -/

theorem max?_cons_foldl (a : Int) (l : List Int) : (a :: l).max? = some (l.foldl max a) := rfl

theorem le_foldl_max (get : String → Int) :
    ∀ (ks : List String) (i : Int), i ≤ ks.foldl (fun m k => max m (get k)) i := by
  intro ks
  induction ks with
  | nil => intro i; exact le_refl i
  | cons k t ih =>
    intro i
    simp only [List.foldl_cons]
    exact le_trans (le_max_left i (get k)) (ih (max i (get k)))

theorem foldMax_char (get : String → Int) :
    ∀ (ks : List String) (k0 : String),
      get (ks.foldl (fun best k => if get k > get best then k else best) k0)
        = ks.foldl (fun m k => max m (get k)) (get k0)
      ∧ (k0 :: ks).find?
          (fun k => get k == ks.foldl (fun m k => max m (get k)) (get k0))
        = some (ks.foldl (fun best k => if get k > get best then k else best) k0) := by
  intro ks
  induction ks with
  | nil =>
    intro k0
    refine ⟨rfl, ?_⟩
    rw [List.find?_cons_of_pos _ (by simp)]
    rfl
  | cons k t ih =>
    intro k0
    have hstep : get (if get k > get k0 then k else k0) = max (get k0) (get k) := by
      split
      · next h => exact (max_eq_right (le_of_lt h)).symm
      · next h => exact (max_eq_left (not_lt.mp h)).symm
    obtain ⟨ihA, ihB⟩ := ih (if get k > get k0 then k else k0)
    constructor
    · simp only [List.foldl_cons]
      rw [ihA, hstep]
    · simp only [List.foldl_cons]
      rw [show max (get k0) (get k)
          = get (if get k > get k0 then k else k0) from hstep.symm]
      set k1 := if get k > get k0 then k else k0 with hk1
      set M := t.foldl (fun m j => max m (get j)) (get k1) with hM
      have hMge : get k1 ≤ M := le_foldl_max get t (get k1)
      by_cases hgt : get k > get k0
      · have hk1k : k1 = k := by rw [hk1, if_pos hgt]
        rw [hk1k] at ihB hMge ⊢
        have hp0 : ¬ (get k0 == M) = true := by
          simp only [beq_iff_eq]
          omega
        rw [@List.find?_cons_of_neg _ (fun j => get j == M) k0 (k :: t) hp0]
        exact ihB
      · have hk1k : k1 = k0 := by rw [hk1, if_neg hgt]
        have hgk : get k ≤ get k0 := not_lt.mp hgt
        rw [hk1k] at ihB hMge ⊢
        by_cases hp0 : (get k0 == M) = true
        · rw [@List.find?_cons_of_pos _ (fun j => get j == M) k0 (k :: t) hp0]
          rw [@List.find?_cons_of_pos _ (fun j => get j == M) k0 t hp0] at ihB
          exact ihB
        · have hne : get k0 ≠ M := fun he => hp0 (beq_iff_eq.mpr he)
          have hlt0 : get k0 < M := lt_of_le_of_ne hMge hne
          have hpk : ¬ (get k == M) = true := by
            simp only [beq_iff_eq]
            omega
          rw [@List.find?_cons_of_neg _ (fun j => get j == M) k0 (k :: t) hp0,
            @List.find?_cons_of_neg _ (fun j => get j == M) k t hpk]
          rw [@List.find?_cons_of_neg _ (fun j => get j == M) k0 t hp0] at ihB
          exact ihB

theorem pyMaxKey_spec (d : PyDict Int) (hkeys : d.keys = platforms) :
    d.get (pyMaxKey d) = specMaxScore d ∧ specFirstMaxProduct d = pyMaxKey d := by
  have hplat : platforms
      = "VirtualBox" :: ["VMware", "Hyper-V", "QEMU/KVM", "Parallels", "Xen"] := rfl
  have hchar := foldMax_char d.get ["VMware", "Hyper-V", "QEMU/KVM", "Parallels", "Xen"]
    "VirtualBox"
  have hmk : pyMaxKey d
      = ["VMware", "Hyper-V", "QEMU/KVM", "Parallels", "Xen"].foldl
          (fun best k => if d.get k > d.get best then k else best) "VirtualBox" := by
    unfold pyMaxKey
    rw [hkeys, hplat]
  have hms : specMaxScore d
      = ["VMware", "Hyper-V", "QEMU/KVM", "Parallels", "Xen"].foldl
          (fun m k => max m (d.get k)) (d.get "VirtualBox") := by
    unfold specMaxScore
    rw [hkeys]
    rfl
  constructor
  · rw [hmk, hms]
    exact hchar.1
  · unfold specFirstMaxProduct
    rw [hkeys, hplat, hms, hmk]
    rw [hchar.2]
    rfl

/-- C2: `confidence` equals the maximum of the score map (post-clamp,
post-penalty), and `best_guess` is the first product reaching that maximum
in table iteration order, or `"Unknown"` when the maximum is below 20. -/
theorem C2_best_guess_confidence (win : Bool) (art : ArtifactCollection) (env : SandboxEnv)
    (ef ag : Bool) :
    (Detector.detect win art env ef ag).confidence
        = specMaxScore (Detector.detect win art env ef ag).scores ∧
    (Detector.detect win art env ef ag).best_guess
        = if specMaxScore (Detector.detect win art env ef ag).scores < 20
          then "Unknown"
          else specFirstMaxProduct (Detector.detect win art env ef ag).scores := by
  have hkeys : (Detector.detect win art env ef ag).scores.keys = platforms :=
    (score_inv win (Detector._normalize art)
      (some (sandbox_checks (Detector._normalize art) env))).1
  obtain ⟨hval, hfm⟩ := pyMaxKey_spec (Detector.detect win art env ef ag).scores hkeys
  have hconf : (Detector.detect win art env ef ag).confidence
      = (Detector.detect win art env ef ag).scores.get
          (pyMaxKey (Detector.detect win art env ef ag).scores) := rfl
  have hbg : (Detector.detect win art env ef ag).best_guess
      = if 20 ≤ (Detector.detect win art env ef ag).scores.get
            (pyMaxKey (Detector.detect win art env ef ag).scores)
        then pyMaxKey (Detector.detect win art env ef ag).scores else "Unknown" := rfl
  constructor
  · rw [hconf, hval]
  · rw [hbg, hval, ← hfm]
    by_cases hm : specMaxScore (Detector.detect win art env ef ag).scores < 20
    · rw [if_neg (by omega), if_pos hm]
    · rw [if_pos (by omega), if_neg hm]

/-- The classification decision chain is equivalent to the four-row
first-match-wins decision table. -/
theorem classify_table (b : Int) (hn : Nat) :
    (classify b hn = "Hardened VM" ↔ (b < 40 ∧ 2 ≤ hn)) ∧
    (classify b hn = "Detected VM" ↔ (¬(b < 40 ∧ 2 ≤ hn) ∧ 80 ≤ b)) ∧
    (classify b hn = "Likely VM" ↔
      (¬(b < 40 ∧ 2 ≤ hn) ∧ ¬(80 ≤ b) ∧ 40 ≤ b ∧ b < 80)) ∧
    (classify b hn = "Unknown/Bare Metal" ↔
      (¬(b < 40 ∧ 2 ≤ hn) ∧ ¬(80 ≤ b) ∧ ¬(40 ≤ b ∧ b < 80))) := by
  unfold classify
  split_ifs with h1 h2 h3
  · exact ⟨⟨fun _ => h1, fun _ => rfl⟩,
      ⟨fun he => absurd he (by decide), fun hc => absurd h1 hc.1⟩,
      ⟨fun he => absurd he (by decide), fun hc => absurd h1 hc.1⟩,
      ⟨fun he => absurd he (by decide), fun hc => absurd h1 hc.1⟩⟩
  · exact ⟨⟨fun he => absurd he (by decide), fun hc => absurd hc h1⟩,
      ⟨fun _ => ⟨h1, h2⟩, fun _ => rfl⟩,
      ⟨fun he => absurd he (by decide), fun hc => absurd h2 hc.2.1⟩,
      ⟨fun he => absurd he (by decide), fun hc => absurd h2 hc.2.1⟩⟩
  · exact ⟨⟨fun he => absurd he (by decide), fun hc => absurd hc h1⟩,
      ⟨fun he => absurd he (by decide), fun hc => absurd hc.2 h2⟩,
      ⟨fun _ => ⟨h1, h2, h3⟩, fun _ => rfl⟩,
      ⟨fun he => absurd he (by decide), fun hc => absurd h3 hc.2.2⟩⟩
  · exact ⟨⟨fun he => absurd he (by decide), fun hc => absurd hc h1⟩,
      ⟨fun he => absurd he (by decide), fun hc => absurd hc.2 h2⟩,
      ⟨fun he => absurd he (by decide), fun hc => absurd hc.2.2 h3⟩,
      ⟨fun _ => ⟨h1, h2, h3⟩, fun _ => rfl⟩⟩

/-- C1: `Detector.detect` assigns exactly one of the four classifications,
following the decision table in order (Hardened VM when best score < 40
with at least two hardened signals, else Detected VM when >= 80, else
Likely VM on [40, 80), else Unknown/Bare Metal); in particular a best
score of 85 yields "Detected VM" for every hardened signal count. -/
theorem C1_classification (win : Bool) (art : ArtifactCollection) (env : SandboxEnv)
    (ef ag : Bool) :
    ((Detector.detect win art env ef ag).classification = "Hardened VM" ↔
        ((Detector.detect win art env ef ag).confidence < 40 ∧ 2 ≤ hardenedCount art)) ∧
    ((Detector.detect win art env ef ag).classification = "Detected VM" ↔
        (¬((Detector.detect win art env ef ag).confidence < 40 ∧ 2 ≤ hardenedCount art) ∧
          80 ≤ (Detector.detect win art env ef ag).confidence)) ∧
    ((Detector.detect win art env ef ag).classification = "Likely VM" ↔
        (¬((Detector.detect win art env ef ag).confidence < 40 ∧ 2 ≤ hardenedCount art) ∧
          ¬(80 ≤ (Detector.detect win art env ef ag).confidence) ∧
          40 ≤ (Detector.detect win art env ef ag).confidence ∧
          (Detector.detect win art env ef ag).confidence < 80)) ∧
    ((Detector.detect win art env ef ag).classification = "Unknown/Bare Metal" ↔
        (¬((Detector.detect win art env ef ag).confidence < 40 ∧ 2 ≤ hardenedCount art) ∧
          ¬(80 ≤ (Detector.detect win art env ef ag).confidence) ∧
          ¬(40 ≤ (Detector.detect win art env ef ag).confidence ∧
            (Detector.detect win art env ef ag).confidence < 80))) ∧
    ((Detector.detect win art env ef ag).confidence = 85 →
      (Detector.detect win art env ef ag).classification = "Detected VM") := by
  have hcl : (Detector.detect win art env ef ag).classification
      = classify (Detector.detect win art env ef ag).confidence (hardenedCount art) := rfl
  obtain ⟨t1, t2, t3, t4⟩ :=
    classify_table (Detector.detect win art env ef ag).confidence (hardenedCount art)
  rw [hcl]
  refine ⟨t1, t2, t3, t4, ?_⟩
  intro h85
  rw [h85]
  unfold classify
  rw [if_neg (fun hc => absurd hc.1 (by omega)), if_pos (by omega)]

/-- C1 witness: the concrete collection `art85` reaches best score 85 and
is classified "Detected VM". -/
theorem C1_witness :
    (Detector.detect false art85 envBenign false false).classification = "Detected VM" :=
  (C1_classification false art85 envBenign false false).2.2.2.2 (by decide)

/-! ## Monotonicity machinery (claim C6) -/

theorem ScoreLe_refl {st : ScoreSt} (h : ScoreInv st) : ScoreLe st st :=
  ⟨h, h, fun _ => le_refl _⟩

theorem get_dscore_add_le {sc sc' : PyDict Int} (h : ∀ q, sc.get q ≤ sc'.get q)
    (vm : String) (n : Int) :
    ∀ q, (dscore_add sc vm n).get q ≤ (dscore_add sc' vm n).get q := by
  intro q
  rw [dscore_add_get, dscore_add_get]
  split
  · exact add_le_add_right (h vm) n
  · exact h q

theorem get_le_dscore_add (sc : PyDict Int) (vm : String) {n : Int} (hn : 0 ≤ n) :
    ∀ q, sc.get q ≤ (dscore_add sc vm n).get q := by
  intro q
  rw [dscore_add_get]
  split
  · next hq => rw [hq]; omega
  · exact le_refl _

theorem ScoreLe_bump_add_app {st st' : ScoreSt} (h : ScoreLe st st') {vm : String}
    (hvm : platforms.contains vm = true) (n : Int) (msg msg' : String) :
    ScoreLe (dscore_add st.1 vm n, dexp_app st.2 vm msg)
            (dscore_add st'.1 vm n, dexp_app st'.2 vm msg') :=
  ⟨ScoreInv_bump_add_app h.1 hvm n msg, ScoreInv_bump_add_app h.2.1 hvm n msg',
   get_dscore_add_le h.2.2 vm n⟩

theorem ScoreLe_bump_add_push {st st' : ScoreSt} (h : ScoreLe st st') {vm : String}
    (hvm : platforms.contains vm = true) (n : Int) (msg msg' : String) :
    ScoreLe (dscore_add st.1 vm n, dexp_push st.2 vm msg)
            (dscore_add st'.1 vm n, dexp_push st'.2 vm msg') :=
  ⟨ScoreInv_bump_add_push h.1 hvm n msg, ScoreInv_bump_add_push h.2.1 hvm n msg',
   get_dscore_add_le h.2.2 vm n⟩

theorem ScoreLe_bump_addSD_app {st st' : ScoreSt} (h : ScoreLe st st') {vm : String}
    (hvm : platforms.contains vm = true) (n : Int) (msg msg' : String) :
    ScoreLe (dscore_addSD st.1 vm n, dexp_app st.2 vm msg)
            (dscore_addSD st'.1 vm n, dexp_app st'.2 vm msg') := by
  rw [dscore_addSD_of_contains _ _ (by rw [h.1.1]; exact hvm),
    dscore_addSD_of_contains _ _ (by rw [h.2.1.1]; exact hvm)]
  exact ScoreLe_bump_add_app h hvm n msg msg'

theorem ScoreLe_skip_bump_add_app {st st' : ScoreSt} (h : ScoreLe st st') {vm : String}
    (hvm : platforms.contains vm = true) {n : Int} (hn : 0 ≤ n) (msg : String) :
    ScoreLe st (dscore_add st'.1 vm n, dexp_app st'.2 vm msg) :=
  ⟨h.1, ScoreInv_bump_add_app h.2.1 hvm n msg,
   fun q => le_trans (h.2.2 q) (get_le_dscore_add st'.1 vm hn q)⟩

theorem ScoreLe_skip_bump_add_push {st st' : ScoreSt} (h : ScoreLe st st') {vm : String}
    (hvm : platforms.contains vm = true) {n : Int} (hn : 0 ≤ n) (msg : String) :
    ScoreLe st (dscore_add st'.1 vm n, dexp_push st'.2 vm msg) :=
  ⟨h.1, ScoreInv_bump_add_push h.2.1 hvm n msg,
   fun q => le_trans (h.2.2 q) (get_le_dscore_add st'.1 vm hn q)⟩

theorem ScoreLe_skip_bump_addSD_app {st st' : ScoreSt} (h : ScoreLe st st') {vm : String}
    (hvm : platforms.contains vm = true) {n : Int} (hn : 0 ≤ n) (msg : String) :
    ScoreLe st (dscore_addSD st'.1 vm n, dexp_app st'.2 vm msg) := by
  rw [dscore_addSD_of_contains _ _ (by rw [h.2.1.1]; exact hvm)]
  exact ScoreLe_skip_bump_add_app h hvm hn msg

theorem scoreClamp_mono {st st' : ScoreSt} (h : ScoreLe st st') :
    ScoreLe (scoreClamp st) (scoreClamp st') := by
  obtain ⟨hI, hI', hle⟩ := h
  refine ⟨scoreClamp_inv hI, scoreClamp_inv hI', ?_⟩
  intro q
  unfold scoreClamp
  rw [hI.1, hI'.1]
  by_cases hq : q ∈ platforms
  · rw [show ((platforms.foldl (fun sc k => sc.set k (max 0 (min 100 (sc.get k)))) st.1,
        st.2) : ScoreSt).1 = platforms.foldl (fun sc k => sc.set k (max 0 (min 100 (sc.get k)))) st.1 from rfl]
    rw [show ((platforms.foldl (fun sc k => sc.set k (max 0 (min 100 (sc.get k)))) st'.1,
        st'.2) : ScoreSt).1 = platforms.foldl (fun sc k => sc.set k (max 0 (min 100 (sc.get k)))) st'.1 from rfl]
    rw [get_foldl_setf_mem (fun _ v => max 0 (min 100 v)) platforms st.1 q platforms_nodup hq,
      get_foldl_setf_mem (fun _ v => max 0 (min 100 v)) platforms st'.1 q platforms_nodup hq]
    exact max_le_max (le_refl 0) (min_le_min (le_refl 100) (hle q))
  · rw [show ((platforms.foldl (fun sc k => sc.set k (max 0 (min 100 (sc.get k)))) st.1,
        st.2) : ScoreSt).1 = platforms.foldl (fun sc k => sc.set k (max 0 (min 100 (sc.get k)))) st.1 from rfl]
    rw [show ((platforms.foldl (fun sc k => sc.set k (max 0 (min 100 (sc.get k)))) st'.1,
        st'.2) : ScoreSt).1 = platforms.foldl (fun sc k => sc.set k (max 0 (min 100 (sc.get k)))) st'.1 from rfl]
    rw [get_foldl_setf_not_mem (fun _ v => max 0 (min 100 v)) platforms st.1 q hq,
      get_foldl_setf_not_mem (fun _ v => max 0 (min 100 v)) platforms st'.1 q hq]
    exact hle q

theorem scoreSandbox_get_some {st : ScoreSt} (hI : ScoreInv st) (sb : SandboxReport)
    (q : String) :
    (scoreSandbox (some sb) st).1.get q
      = if sb.detected = true then
          (if q ∈ platforms then max 0 (st.1.get q - 30) else st.1.get q)
        else st.1.get q := by
  simp only [scoreSandbox]
  rw [foldl_fst_id _ (sandboxNoteStep_fst sb)]
  cases hdet : sb.detected with
  | true =>
    simp only [if_true]
    rw [hI.1, penaltyFold_split]
    by_cases hq : q ∈ platforms
    · rw [if_pos hq]
      exact get_foldl_setf_mem (fun _ v => max 0 (v - 30)) platforms st.1 q platforms_nodup hq
    · rw [if_neg hq]
      exact get_foldl_setf_not_mem (fun _ v => max 0 (v - 30)) platforms st.1 q hq
  | false =>
    simp only [Bool.false_eq_true, if_false]

theorem scoreSandbox_mono (sb : Option SandboxReport) {st st' : ScoreSt}
    (h : ScoreLe st st') : ScoreLe (scoreSandbox sb st) (scoreSandbox sb st') := by
  cases sb with
  | none => exact h
  | some sb =>
    refine ⟨scoreSandbox_inv (some sb) h.1, scoreSandbox_inv (some sb) h.2.1, ?_⟩
    intro q
    rw [scoreSandbox_get_some h.1 sb q, scoreSandbox_get_some h.2.1 sb q]
    have hle := h.2.2 q
    split
    · split
      · exact max_le_max (le_refl 0) (by omega)
      · exact hle
    · exact hle

theorem scoreHardVendors_mono_sub {art art' : ArtifactCollection}
    (hsub : ∀ a, (art.pci_vendors.map pyUpper).contains a = true →
      (art'.pci_vendors.map pyUpper).contains a = true)
    {st st' : ScoreSt} (h : ScoreLe st st') :
    ScoreLe (scoreHardVendors art st) (scoreHardVendors art' st') := by
  unfold scoreHardVendors
  refine foldl_rel ScoreLe _ _ _ ?_ st st' h
  intro st st' pr hpr hR
  refine foldl_rel ScoreLe _ _ _ ?_ st st' hR
  intro st st' vid _ hR2
  by_cases hc : ((art.pci_vendors.map pyUpper).contains (pyUpper vid)) = true
  · rw [if_pos hc, if_pos (hsub _ hc)]
    exact ScoreLe_bump_add_push hR2 (vendors_keys_sub pr hpr) 60 _ _
  · by_cases hc' : ((art'.pci_vendors.map pyUpper).contains (pyUpper vid)) = true
    · rw [if_neg hc, if_pos hc']
      exact ScoreLe_skip_bump_add_push hR2 (vendors_keys_sub pr hpr) (by norm_num) _
    · rw [if_neg hc, if_neg hc']
      exact hR2

theorem scoreExpanded_mono_app {art art' : ArtifactCollection} (v : String)
    (hv : art'.pci_vendors = art.pci_vendors ++ [v])
    (hd : art'.pci_devices = art.pci_devices)
    {st st' : ScoreSt} (h : ScoreLe st st') :
    ScoreLe (scoreExpanded art st) (scoreExpanded art' st') := by
  unfold scoreExpanded
  simp only [hv, hd]
  refine foldl_rel ScoreLe _ _ _ ?_ st st' h
  intro st st' pr hpr hR
  have hven : ScoreLe
      (art.pci_vendors.foldl (fun st v =>
        if pr.2.1.contains (pyUpper (strReplace0x v))
        then (dscore_addSD st.1 pr.1 30, dexp_app st.2 pr.1 (s!"Expanded vendor {v}"))
        else st) st)
      ((art.pci_vendors ++ [v]).foldl (fun st v =>
        if pr.2.1.contains (pyUpper (strReplace0x v))
        then (dscore_addSD st.1 pr.1 30, dexp_app st.2 pr.1 (s!"Expanded vendor {v}"))
        else st) st') := by
    rw [List.foldl_append]
    simp only [List.foldl_cons, List.foldl_nil]
    have hbase : ScoreLe
        (art.pci_vendors.foldl (fun st v =>
          if pr.2.1.contains (pyUpper (strReplace0x v))
          then (dscore_addSD st.1 pr.1 30, dexp_app st.2 pr.1 (s!"Expanded vendor {v}"))
          else st) st)
        (art.pci_vendors.foldl (fun st v =>
          if pr.2.1.contains (pyUpper (strReplace0x v))
          then (dscore_addSD st.1 pr.1 30, dexp_app st.2 pr.1 (s!"Expanded vendor {v}"))
          else st) st') := by
      refine foldl_rel ScoreLe _ _ _ ?_ st st' hR
      intro st st' w _ hR2
      by_cases hc : (pr.2.1.contains (pyUpper (strReplace0x w))) = true
      · rw [if_pos hc, if_pos hc]
        exact ScoreLe_bump_addSD_app hR2 (sigs_keys_sub pr hpr) 30 _ _
      · rw [if_neg hc, if_neg hc]
        exact hR2
    by_cases hc : (pr.2.1.contains (pyUpper (strReplace0x v))) = true
    · rw [if_pos hc]
      exact ScoreLe_skip_bump_addSD_app hbase (sigs_keys_sub pr hpr) (by norm_num) _
    · rw [if_neg hc]
      exact hbase
  refine foldl_rel ScoreLe _ _ _ ?_ _ _ hven
  intro st st' d _ hR2
  by_cases hc : (pr.2.2.contains (pyUpper (strReplace0x d))) = true
  · rw [if_pos hc, if_pos hc]
    exact ScoreLe_bump_addSD_app hR2 (sigs_keys_sub pr hpr) 20 _ _
  · rw [if_neg hc, if_neg hc]
    exact hR2

theorem scoreLegacyDevices_mono {art art' : ArtifactCollection}
    (hd : art'.pci_devices = art.pci_devices)
    {st st' : ScoreSt} (h : ScoreLe st st') :
    ScoreLe (scoreLegacyDevices art st) (scoreLegacyDevices art' st') := by
  unfold scoreLegacyDevices
  simp only [hd]
  refine foldl_rel ScoreLe _ _ _ ?_ st st' h
  intro st st' pr hpr hR
  refine foldl_rel ScoreLe _ _ _ ?_ st st' hR
  intro st st' did _ hR2
  by_cases hc : ((art.pci_devices.map pyUpper).contains (pyUpper did)) = true
  · rw [if_pos hc, if_pos hc]
    exact ScoreLe_bump_add_app hR2 (devices_keys_sub pr hpr) 20 _ _
  · rw [if_neg hc, if_neg hc]
    exact hR2

theorem scoreCpuid_mono {art art' : ArtifactCollection}
    (hcp : art'.cpuid_signature = art.cpuid_signature)
    {st st' : ScoreSt} (h : ScoreLe st st') :
    ScoreLe (scoreCpuid art st) (scoreCpuid art' st') := by
  unfold scoreCpuid
  simp only [hcp]
  split
  · refine foldl_rel ScoreLe _ _ _ ?_ st st' h
    intro st st' pr hpr hR
    dsimp only
    by_cases hc : (strIn (pyLower pr.2) (pyLower (optStr art.cpuid_signature))) = true
    · rw [if_pos hc, if_pos hc]
      exact ScoreLe_bump_addSD_app hR (cpuid_keys_sub pr hpr) 40 _ _
    · rw [if_neg hc, if_neg hc]
      exact hR
  · exact h

theorem scoreAcpi_mono {art art' : ArtifactCollection}
    (ha : art'.acpi_signatures = art.acpi_signatures)
    {st st' : ScoreSt} (h : ScoreLe st st') :
    ScoreLe (scoreAcpi art st) (scoreAcpi art' st') := by
  unfold scoreAcpi
  simp only [ha]
  refine foldl_rel ScoreLe _ _ _ ?_ st st' h
  intro st st' sig _ hR
  refine foldl_rel ScoreLe _ _ _ ?_ st st' hR
  intro st st' vm hvm hR2
  by_cases hc : (strIn (slashHead (pyLower vm)) (pyLower sig)) = true
  · rw [if_pos hc, if_pos hc]
    exact ScoreLe_bump_add_app hR2 (contains_of_mem hvm) 15 _ _
  · rw [if_neg hc, if_neg hc]
    exact hR2

theorem scoreBios_mono {art art' : ArtifactCollection}
    (hbv : art'.bios_vendor = art.bios_vendor)
    (hbb : art'.bios_brand = art.bios_brand)
    {st st' : ScoreSt} (h : ScoreLe st st') :
    ScoreLe (scoreBios art st) (scoreBios art' st') := by
  unfold scoreBios
  simp only [hbv, hbb]
  have hR1 : ScoreLe
      (VM_SOFT_KEYWORDS.foldl (fun st pr =>
        pr.2.1.foldl (fun st kw =>
          if optTruthy art.bios_vendor && strIn (pyLower kw) (pyLower (optStr art.bios_vendor))
          then (dscore_add st.1 pr.1 20, dexp_app st.2 pr.1 (s!"BIOS contains {kw}"))
          else st) st) st)
      (VM_SOFT_KEYWORDS.foldl (fun st pr =>
        pr.2.1.foldl (fun st kw =>
          if optTruthy art.bios_vendor && strIn (pyLower kw) (pyLower (optStr art.bios_vendor))
          then (dscore_add st.1 pr.1 20, dexp_app st.2 pr.1 (s!"BIOS contains {kw}"))
          else st) st) st') := by
    refine foldl_rel ScoreLe _ _ _ ?_ st st' h
    intro st st' pr hpr hR
    refine foldl_rel ScoreLe _ _ _ ?_ st st' hR
    intro st st' kw _ hR2
    by_cases hc : (optTruthy art.bios_vendor
        && strIn (pyLower kw) (pyLower (optStr art.bios_vendor))) = true
    · rw [if_pos hc, if_pos hc]
      exact ScoreLe_bump_add_app hR2 (soft_keys_sub pr hpr) 20 _ _
    · rw [if_neg hc, if_neg hc]
      exact hR2
  rw [hR1.1.1, hR1.2.1.1]
  by_cases hc : (optTruthy art.bios_brand
      && platforms.contains (optStr art.bios_brand)) = true
  · rw [if_pos hc, if_pos hc]
    exact ScoreLe_bump_add_app hR1 (Bool.and_elim_right hc) 25 _ _
  · rw [if_neg hc, if_neg hc]
    exact hR1

theorem scoreProcessKeywords_mono {art art' : ArtifactCollection}
    (hp : art'.processes = art.processes)
    {st st' : ScoreSt} (h : ScoreLe st st') :
    ScoreLe (scoreProcessKeywords art st) (scoreProcessKeywords art' st') := by
  unfold scoreProcessKeywords
  simp only [hp]
  refine foldl_rel ScoreLe _ _ _ ?_ st st' h
  intro st st' pr hpr hR
  refine foldl_rel ScoreLe _ _ _ ?_ st st' hR
  intro st st' pk _ hR2
  by_cases hc : (art.processes.any (fun p => strIn (pyLower pk) (pyLower p))) = true
  · rw [if_pos hc, if_pos hc]
    exact ScoreLe_bump_add_app hR2 (soft_keys_sub pr hpr) 15 _ _
  · rw [if_neg hc, if_neg hc]
    exact hR2

theorem scoreMacPrefixes_mono {art art' : ArtifactCollection}
    (hm : art'.mac_prefixes = art.mac_prefixes)
    {st st' : ScoreSt} (h : ScoreLe st st') :
    ScoreLe (scoreMacPrefixes art st) (scoreMacPrefixes art' st') := by
  unfold scoreMacPrefixes
  simp only [hm]
  refine foldl_rel ScoreLe _ _ _ ?_ st st' h
  intro st st' pr hpr hR
  by_cases hc : (pr.2.any (fun pref =>
      (art.mac_prefixes.map pyUpper).contains (pyUpper pref))) = true
  · rw [if_pos hc, if_pos hc]
    exact ScoreLe_bump_add_app hR (mac_keys_sub pr hpr) 10 _ _
  · rw [if_neg hc, if_neg hc]
    exact hR

theorem scoreDiskVendors_mono {art art' : ArtifactCollection}
    (hd : art'.disk_vendors = art.disk_vendors)
    {st st' : ScoreSt} (h : ScoreLe st st') :
    ScoreLe (scoreDiskVendors art st) (scoreDiskVendors art' st') := by
  unfold scoreDiskVendors
  simp only [hd]
  refine foldl_rel ScoreLe _ _ _ ?_ st st' h
  intro st st' dv _ hR
  refine foldl_rel ScoreLe _ _ _ ?_ st st' hR
  intro st st' pr hpr hR2
  refine foldl_rel ScoreLe _ _ _ ?_ st st' hR2
  intro st st' sub _ hR3
  by_cases hc : (strIn (pyLower sub) (pyLower dv)) = true
  · rw [if_pos hc, if_pos hc]
    exact ScoreLe_bump_add_app hR3 (disk_keys_sub pr hpr) 15 _ _
  · rw [if_neg hc, if_neg hc]
    exact hR3

theorem scoreHypervisorFlag_mono {art art' : ArtifactCollection}
    (hf : art'.hypervisor_flag = art.hypervisor_flag)
    {st st' : ScoreSt} (h : ScoreLe st st') :
    ScoreLe (scoreHypervisorFlag art st) (scoreHypervisorFlag art' st') := by
  unfold scoreHypervisorFlag
  simp only [hf]
  split
  · rw [h.1.1, h.2.1.1]
    refine foldl_rel ScoreLe _ _ _ ?_ st st' h
    intro st st' vm hvm hR
    exact ScoreLe_bump_add_app hR (contains_of_mem hvm) 10 _ _
  · exact h

theorem scoreWindowsProduct_mono (win : Bool) {art art' : ArtifactCollection}
    (hs : art'.system_product = art.system_product)
    {st st' : ScoreSt} (h : ScoreLe st st') :
    ScoreLe (scoreWindowsProduct win art st) (scoreWindowsProduct win art' st') := by
  unfold scoreWindowsProduct
  simp only [hs]
  split
  · by_cases h1 : (strIn "qemu" (pyLower (optStr art.system_product))
        || strIn "kvm" (pyLower (optStr art.system_product))) = true
    · rw [if_pos h1, if_pos h1]
      exact ScoreLe_bump_add_app h (by decide) 50 _ _
    · rw [if_neg h1, if_neg h1]
      by_cases h2 : (strIn "vmware" (pyLower (optStr art.system_product))) = true
      · rw [if_pos h2, if_pos h2]
        exact ScoreLe_bump_add_app h (by decide) 50 _ _
      · rw [if_neg h2, if_neg h2]
        by_cases h3 : (strIn "virtualbox" (pyLower (optStr art.system_product))) = true
        · rw [if_pos h3, if_pos h3]
          exact ScoreLe_bump_add_app h (by decide) 50 _ _
        · rw [if_neg h3, if_neg h3]
          by_cases h4 : (strIn "microsoft" (pyLower (optStr art.system_product))) = true
          · rw [if_pos h4, if_pos h4]
            exact ScoreLe_bump_add_app h (by decide) 50 _ _
          · rw [if_neg h4, if_neg h4]
            exact h
  · exact h

theorem score_mono_ext (win : Bool) (sb : Option SandboxReport) (art : ArtifactCollection)
    (v : String) :
    ScoreLe (Detector.score win art sb)
            (Detector.score win {art with pci_vendors := art.pci_vendors ++ [v]} sb) := by
  unfold Detector.score Detector.scorePre
  apply scoreSandbox_mono
  apply scoreClamp_mono
  apply scoreWindowsProduct_mono win rfl
  apply scoreHypervisorFlag_mono rfl
  apply scoreDiskVendors_mono rfl
  apply scoreMacPrefixes_mono rfl
  apply scoreProcessKeywords_mono rfl
  apply scoreBios_mono rfl rfl
  apply scoreAcpi_mono rfl
  apply scoreCpuid_mono rfl
  apply scoreLegacyDevices_mono rfl
  refine scoreExpanded_mono_app v ?_ ?_
      (scoreHardVendors_mono_sub ?_ (ScoreLe_refl scoreInit_inv))
  · rfl
  · rfl
  · intro a ha
    apply contains_of_mem
    have hm := mem_of_contains ha
    rw [show ({art with pci_vendors := art.pci_vendors ++ [v]} :
        ArtifactCollection).pci_vendors = art.pci_vendors ++ [v] from rfl, List.map_append]
    exact List.mem_append_left _ hm

/-- C6: adding one more PCI vendor id matching a product's vendor-id table
never decreases that product's score from `Detector.score` (for any
optional sandbox report; the only downward movement is the clamp, which is
monotone). -/
theorem C6_vendor_monotone (win : Bool) (art : ArtifactCollection) (sb : Option SandboxReport)
    (p v : String)
    (hmatch : ∃ pr ∈ VM_PCI_VENDORS, pr.1 = p ∧ (pr.2.map pyUpper).contains (pyUpper v) = true) :
    (Detector.score win art sb).1.get p
      ≤ (Detector.score win {art with pci_vendors := art.pci_vendors ++ [v]} sb).1.get p :=
  (score_mono_ext win sb art v).2.2 p

/-- C6 witness: appending the matching VMware vendor id `0x15ad` to the
empty collection does not decrease the VMware score. -/
theorem C6_witness :
    (Detector.score false ArtifactCollection.init none).1.get "VMware"
      ≤ (Detector.score false
          {ArtifactCollection.init with
            pci_vendors := ArtifactCollection.init.pci_vendors ++ ["0x15ad"]} none).1.get
          "VMware" :=
  C6_vendor_monotone false ArtifactCollection.init none "VMware" "0x15ad"
    ⟨("VMware", ["0x15AD"]), by decide, rfl, by decide⟩

/-- C9 witness: the process list `["bash", "wireshark"]` carries exactly
one sandbox-keyword match in an otherwise benign environment, and
`sandbox_checks` reports `detected`. -/
theorem C9_witness : (sandbox_checks artWS envBenign).detected = true :=
  C9_single_process_detected artWS envBenign (by decide) (by decide)
    (by decide) (by decide) (by decide) (by decide) rfl rfl
